import Mathlib

/-!
# MRAS rotor-speed estimator (`foc/estim_mras.c`, `foc/estim_mras.h`)

A shallow embedding of the estimator of the ACIM pump drive, and theorems about it.

Conventions of the embedding:

* Every `int16_t` / `int32_t` object is an `Int`.  A store into a 16-bit object of a value
  computed in a wider type is written `toS16`, the two's-complement reduction done by the
  dsPIC33 target (where `int` is 16 bits wide, so `a + b` on two `int16_t` is a 16-bit
  addition).  A 32-bit `+=` is written `toS32`.
* The structure is passed by pointer and updated in place in C; here every function takes the
  old structure and returns the new one.
* The objects behind the read-only pointers `pIdq`, `pVdq`, `pCtrlParam` are refreshed by the
  caller before every tick; their contents at the time of the call are the argument
  `MRAS_INPUTS`.
* The PI controller is an external primitive; the estimator is parameterised by it.
-/

namespace MRAS

/-! ## Machine integers -/

/-- Two's-complement reduction of an integer to the signed 16-bit range. -/
def toS16 (x : Int) : Int := (x + 32768) % 65536 - 32768

/-- Two's-complement reduction of an integer to the signed 32-bit range. -/
def toS32 (x : Int) : Int := (x + 2147483648) % 4294967296 - 2147483648

/-- Clamp to the signed 16-bit range `[-32768, 32767]`. -/
def clamp16 (x : Int) : Int :=
  if x > 32767 then 32767 else if x < -32768 then -32768 else x

/-- Membership in the signed 16-bit range. -/
def InS16 (x : Int) : Prop := -32768 ≤ x ∧ x ≤ 32767

instance (x : Int) : Decidable (InS16 x) := by
  unfold InS16; infer_instance

/-- The C operator `>>` on a signed operand: the arithmetic right shift, which rounds toward
minus infinity. -/
def asr (x : Int) (n : Nat) : Int := x >>> n

/-- Compiler built-in `__builtin_mulss`: signed 16 x 16 -> 32 bit multiplication.  The product
of two 16-bit values always fits in 32 bits, so it is the exact product. -/
def builtin_mulss (p0 p1 : Int) : Int := p0 * p1

/-- Compiler built-in `__builtin_divsd`: signed 32 / 16 -> 16 bit division, the quotient
truncated toward zero.  The hardware leaves the result unspecified when the quotient does not
fit in 16 bits; the embedding keeps its low 16 bits there, and every theorem that depends on
the quotient's value carries the hypothesis that it fits. -/
def builtin_divsd (num den : Int) : Int := toS16 (Int.tdiv num den)

/-- Modelled from the spec: `UTIL_SatShrS16` of `general.h`, which is not part of the sources
at hand.  The spec describes it as an arithmetic right shift of the full-precision 32-bit value
"clamped to the representable range on overflow".  The shift count is an unsigned 16-bit
parameter. -/
def UTIL_SatShrS16 (x : Int) (q : Int) : Int :=
  clamp16 (asr x (q % 65536).toNat)

/-! ## Data model (`estim_mras.h`) -/

/-- State variables for reactive power: `MRAS_ESTIMATOR_Reactive_Power`. -/
structure MRAS_ESTIMATOR_Reactive_Power where
  First_Term : Int
  Second_Term : Int
  Final_term : Int
  deriving DecidableEq

/-- State variables of the bilinear low-pass filter: `LPF`. -/
structure LPF where
  Y : Int
  Y_prev : Int
  X : Int
  X_prev : Int
  X_Coeff : Int
  Y_Coeff : Int
  deriving DecidableEq

/-- Modelled from the spec: `MC_DQ_T`, the d-q pair of the motor-control library (declared
outside the sources at hand); the code reads its members `d` and `q`. -/
structure MC_DQ_T where
  d : Int
  q : Int
  deriving DecidableEq

/-- Modelled from the spec: the two members of `MCAPP_CONTROL_T` that the estimator reads, the
reference speed `qVelRef` and the reference d-axis current `qIdRef`. -/
structure MCAPP_CONTROL_T where
  qVelRef : Int
  qIdRef : Int
  deriving DecidableEq

/-- Modelled from the spec: `MCAPP_PISTATE_T` of `sat_pi/sat_pi.h`.  The estimator touches only
the member `integrator`; the remaining members (gains, limits) are configuration that is opaque
to the estimator and kept as a list of words. -/
structure MCAPP_PISTATE_T where
  integrator : Int
  gains : List Int
  deriving DecidableEq

/-- Modelled from the spec: the saturation mode argument of the PI primitive.  The estimator
only ever passes `MCAPP_SAT_NONE`; every other enumerator is `other`. -/
inductive MCAPP_SAT_STATE where
  | MCAPP_SAT_NONE
  | other (code : Nat)
  deriving DecidableEq

/-- State variables for the MRAS estimator: `MCAPP_ESTIMATOR_MRAS_T`, members in the order of
the header.  The six read-only pointer members are not part of the value: what they point to
is the argument `MRAS_INPUTS` of the update. -/
structure MCAPP_ESTIMATOR_MRAS_T where
  sigmaLs : Int
  Ls : Int
  sigmaLsScale : Int
  LsScale : Int
  idSquare : Int
  iqSquare : Int
  idSquareLs : Int
  iqSquareSigmaLs : Int
  omegaPetrub : Int
  omegaRef : Int
  omegaSyn : Int
  omegaSyn_fil : Int
  omegaSlip : Int
  omegaRotor : Int
  omegaRotorFil : Int
  qOmegaFiltConst : Int
  qOmegaRotorStateVar : Int
  qRho : Int
  qRhoStateVar : Int
  qDeltaT : Int
  ImrEstim : Int
  InvTr : Int
  qImrEstimFilterK : Int
  ImrEstimStateVar : Int
  isdq : MC_DQ_T
  vdq : MC_DQ_T
  reactivePowerRef : MRAS_ESTIMATOR_Reactive_Power
  reactivePowerEst : MRAS_ESTIMATOR_Reactive_Power
  MRAS_PISTATE : MCAPP_PISTATE_T
  LPF_MRAS_omegaR : LPF
  LPF_MRAS_omegaSyn : LPF

/-- The objects read through `pIdq`, `pVdq` and `pCtrlParam` during one update. -/
structure MRAS_INPUTS where
  pIdq : MC_DQ_T
  pVdq : MC_DQ_T
  pCtrlParam : MCAPP_CONTROL_T
  deriving DecidableEq

/-! ## The external PI primitive and the recorded calls -/

/-- The external primitive `MCAPP_ControllerPIUpdate(in1, in2, &state, satMode, &out, ff)`:
from its two inputs, the PI state, the saturation mode and the feed-forward term it yields the
new PI state and the value written through `out`. -/
abbrev PIPrimitive :=
  Int → Int → MCAPP_PISTATE_T → MCAPP_SAT_STATE → Int → MCAPP_PISTATE_T × Int

/-- One recorded invocation of the PI primitive: its first and second argument (process value
and setpoint in the words of the spec), the saturation mode and the feed-forward term. -/
structure PICall where
  processValue : Int
  setpoint : Int
  satMode : MCAPP_SAT_STATE
  feedForward : Int
  deriving DecidableEq

/-- One recorded evaluation of `__builtin_divsd`. -/
structure DivCall where
  num : Int
  den : Int
  deriving DecidableEq

/-- What one update did besides changing the state: the PI invocations and the divisions. -/
structure MRAS_TRACE where
  piCalls : List PICall
  divCalls : List DivCall
  deriving DecidableEq

/-- Invoke the PI primitive and record the arguments of the invocation. -/
def callPI (PI : PIPrimitive) (in1 in2 : Int) (st : MCAPP_PISTATE_T) (sat : MCAPP_SAT_STATE)
    (ff : Int) : (MCAPP_PISTATE_T × Int) × List PICall :=
  (PI in1 in2 st sat ff, [⟨in1, in2, sat, ff⟩])

/-- Evaluate `__builtin_divsd` and record its operands. -/
def callDivsd (num den : Int) : Int × List DivCall :=
  (builtin_divsd num den, [⟨num, den⟩])

/-! ## The low-pass filter primitive (`estim_mras.c`, lines 174-193) -/

/-- Function `MCAPP_MRAS_LowPassFilter`: the new filter state and the returned value.  The three
saturated products are added with the plain 16-bit `+` of C. -/
def MCAPP_MRAS_LowPassFilter (lpf : LPF) : LPF × Int :=
  let lpf : LPF := { lpf with
    Y := toS16 (UTIL_SatShrS16 (builtin_mulss lpf.Y_prev lpf.Y_Coeff) 15
          + UTIL_SatShrS16 (builtin_mulss lpf.X_Coeff lpf.X) 15
          + UTIL_SatShrS16 (builtin_mulss lpf.X_Coeff lpf.X_prev) 15) }
  let lpf : LPF := { lpf with Y_prev := lpf.Y }
  let lpf : LPF := { lpf with X_prev := lpf.X }
  (lpf, lpf.Y)

/-- Function `MCAPP_MRAS_InitLowPassFilter` (lines 187-193). -/
def MCAPP_MRAS_InitLowPassFilter (lpf : LPF) : LPF :=
  { lpf with Y := 0, Y_prev := 0, X := 0, X_prev := 0 }

/-! ## The estimator (`estim_mras.c`, lines 74-170) -/

/-- Function `MCAPP_EstimatorMRASInit` (lines 74-86): seven stores, two of them through
`MCAPP_MRAS_InitLowPassFilter`. -/
def MCAPP_EstimatorMRASInit (pMRAS : MCAPP_ESTIMATOR_MRAS_T) : MCAPP_ESTIMATOR_MRAS_T :=
  { pMRAS with
    qRhoStateVar := 0
    ImrEstimStateVar := 0
    qOmegaRotorStateVar := 0
    MRAS_PISTATE := { pMRAS.MRAS_PISTATE with integrator := 0 }
    LPF_MRAS_omegaSyn := MCAPP_MRAS_InitLowPassFilter pMRAS.LPF_MRAS_omegaSyn
    LPF_MRAS_omegaR := MCAPP_MRAS_InitLowPassFilter pMRAS.LPF_MRAS_omegaR
    omegaRotor := 0 }

/-! The function `MCAPP_EstimatorMRAS` is one straight-line function body.  It is embedded as the
composition of its consecutive statement groups, in source order; each group below lists the
source lines it embeds. -/

/-- Lines 107-116: the speed reference pass-through and the reference reactive power
`Qref = vq*id - vd*iq`. -/
def MRAS_refReactivePower (inp : MRAS_INPUTS) (pMRAS : MCAPP_ESTIMATOR_MRAS_T) :
    MCAPP_ESTIMATOR_MRAS_T :=
  let pVdq := inp.pVdq
  let pIdq := inp.pIdq
  let First_Term := UTIL_SatShrS16 (builtin_mulss pVdq.q pIdq.d) 15
  let Second_Term := UTIL_SatShrS16 (builtin_mulss pVdq.d pIdq.q) 15
  let Final_term := toS16 (First_Term - Second_Term)
  { pMRAS with
    omegaRef := inp.pCtrlParam.qVelRef
    reactivePowerRef := ⟨First_Term, Second_Term, Final_term⟩ }

/-- Lines 118-128: the estimated reactive power `Qest = Ls*id*id*we + sigmaLs*iq*iq*we`.  The
two squares and their products with the inductances are shifted with the plain `>> 15` and
stored into 16-bit members; only the two terms go through `UTIL_SatShrS16`. -/
def MRAS_estReactivePower (inp : MRAS_INPUTS) (pMRAS : MCAPP_ESTIMATOR_MRAS_T) :
    MCAPP_ESTIMATOR_MRAS_T :=
  let pIdq := inp.pIdq
  let idSquare := toS16 (asr (builtin_mulss pIdq.d pIdq.d) 15)
  let idSquareLs := toS16 (asr (builtin_mulss idSquare pMRAS.Ls) 15)
  let First_Term := UTIL_SatShrS16 (builtin_mulss idSquareLs pMRAS.omegaSyn_fil) pMRAS.LsScale
  let iqSquare := toS16 (asr (builtin_mulss pIdq.q pIdq.q) 15)
  let iqSquareSigmaLs := toS16 (asr (builtin_mulss iqSquare pMRAS.sigmaLs) 15)
  let Second_Term :=
    UTIL_SatShrS16 (builtin_mulss iqSquareSigmaLs pMRAS.omegaSyn_fil) pMRAS.sigmaLsScale
  let Final_term := toS16 (First_Term + Second_Term)
  { pMRAS with
    idSquare := idSquare
    idSquareLs := idSquareLs
    iqSquare := iqSquare
    iqSquareSigmaLs := iqSquareSigmaLs
    reactivePowerEst := ⟨First_Term, Second_Term, Final_term⟩ }

/-- Lines 131-141: the PI invocation, whose argument order is selected by the sign of `iq`, and
the raw rotor speed `omegaRef + omegaPetrub`. -/
def MRAS_adaptiveCorrection (PI : PIPrimitive) (inp : MRAS_INPUTS)
    (pMRAS : MCAPP_ESTIMATOR_MRAS_T) : MCAPP_ESTIMATOR_MRAS_T × List PICall :=
  let r :=
    if inp.pIdq.q < 0 then
      callPI PI pMRAS.reactivePowerEst.Final_term pMRAS.reactivePowerRef.Final_term
        pMRAS.MRAS_PISTATE MCAPP_SAT_STATE.MCAPP_SAT_NONE 0
    else
      callPI PI pMRAS.reactivePowerRef.Final_term pMRAS.reactivePowerEst.Final_term
        pMRAS.MRAS_PISTATE MCAPP_SAT_STATE.MCAPP_SAT_NONE 0
  ({ pMRAS with
      MRAS_PISTATE := r.1.1
      omegaPetrub := r.1.2
      omegaRotor := toS16 (pMRAS.omegaRef + r.1.2) }, r.2)

/-- Lines 142-145: the first-order low-pass of the estimated rotor velocity. -/
def MRAS_rotorSpeedFilter (pMRAS : MCAPP_ESTIMATOR_MRAS_T) : MCAPP_ESTIMATOR_MRAS_T :=
  let Omegadiff := toS16 (pMRAS.omegaRotor - pMRAS.omegaRotorFil)
  let qOmegaRotorStateVar :=
    toS32 (pMRAS.qOmegaRotorStateVar + builtin_mulss Omegadiff pMRAS.qOmegaFiltConst)
  { pMRAS with
    qOmegaRotorStateVar := qOmegaRotorStateVar
    omegaRotorFil := toS16 (asr qOmegaRotorStateVar 15) }

/-- Lines 148-151: the magnetizing current estimate `Imr = Id / (Tr s + 1)`. -/
def MRAS_magnetizingCurrent (inp : MRAS_INPUTS) (pMRAS : MCAPP_ESTIMATOR_MRAS_T) :
    MCAPP_ESTIMATOR_MRAS_T :=
  let Imrdiff := toS16 (inp.pCtrlParam.qIdRef - pMRAS.ImrEstim)
  let ImrEstimStateVar :=
    toS32 (pMRAS.ImrEstimStateVar + builtin_mulss Imrdiff pMRAS.qImrEstimFilterK)
  { pMRAS with
    ImrEstimStateVar := ImrEstimStateVar
    ImrEstim := toS16 (asr ImrEstimStateVar 15) }

/-- Lines 153-161: the slip speed `wslip = (1/Tr) * (iq/imr)`, with the guard on `ImrEstim`. -/
def MRAS_slipSpeed (inp : MRAS_INPUTS) (pMRAS : MCAPP_ESTIMATOR_MRAS_T) :
    MCAPP_ESTIMATOR_MRAS_T × List DivCall :=
  let iqTr := builtin_mulss pMRAS.InvTr inp.pIdq.q
  let r : Int × List DivCall :=
    if pMRAS.ImrEstim > 0 then callDivsd iqTr pMRAS.ImrEstim else (0, [])
  ({ pMRAS with omegaSlip := r.1 }, r.2)

/-- Lines 163-169: the synchronous speed, its bilinear low-pass filter and the angle
integration. -/
def MRAS_syncSpeedAndAngle (pMRAS : MCAPP_ESTIMATOR_MRAS_T) : MCAPP_ESTIMATOR_MRAS_T :=
  let omegaSyn := toS16 (pMRAS.omegaRotor + pMRAS.omegaSlip)
  let f := MCAPP_MRAS_LowPassFilter { pMRAS.LPF_MRAS_omegaSyn with X := omegaSyn }
  let qRhoStateVar := toS32 (pMRAS.qRhoStateVar + builtin_mulss f.2 pMRAS.qDeltaT)
  { pMRAS with
    omegaSyn := omegaSyn
    LPF_MRAS_omegaSyn := f.1
    omegaSyn_fil := f.2
    qRhoStateVar := qRhoStateVar
    qRho := toS16 (asr qRhoStateVar 15) }

/-- Function `MCAPP_EstimatorMRAS` together with the record of its PI invocations and divisions: the
statement groups in source order. -/
def MCAPP_EstimatorMRAS_traced (PI : PIPrimitive) (inp : MRAS_INPUTS)
    (pMRAS : MCAPP_ESTIMATOR_MRAS_T) : MCAPP_ESTIMATOR_MRAS_T × MRAS_TRACE :=
  let s := MRAS_refReactivePower inp pMRAS
  let s := MRAS_estReactivePower inp s
  let c := MRAS_adaptiveCorrection PI inp s
  let s := MRAS_rotorSpeedFilter c.1
  let s := MRAS_magnetizingCurrent inp s
  let d := MRAS_slipSpeed inp s
  let s := MRAS_syncSpeedAndAngle d.1
  (s, { piCalls := c.2, divCalls := d.2 })

/-- Function `MCAPP_EstimatorMRAS`: the state after one update. -/
def MCAPP_EstimatorMRAS (PI : PIPrimitive) (inp : MRAS_INPUTS)
    (pMRAS : MCAPP_ESTIMATOR_MRAS_T) : MCAPP_ESTIMATOR_MRAS_T :=
  (MCAPP_EstimatorMRAS_traced PI inp pMRAS).1

/-- The record of PI invocations and divisions of one update. -/
def MCAPP_EstimatorMRAS_trace (PI : PIPrimitive) (inp : MRAS_INPUTS)
    (pMRAS : MCAPP_ESTIMATOR_MRAS_T) : MRAS_TRACE :=
  (MCAPP_EstimatorMRAS_traced PI inp pMRAS).2

/-- The caller's periodic loop: one `MCAPP_EstimatorMRAS` call per element of the input
sequence; the result lists the state after every tick. -/
def MRAS_run (PI : PIPrimitive) : List MRAS_INPUTS → MCAPP_ESTIMATOR_MRAS_T →
    List MCAPP_ESTIMATOR_MRAS_T
  | [], _ => []
  | inp :: rest, s => MCAPP_EstimatorMRAS PI inp s :: MRAS_run PI rest (MCAPP_EstimatorMRAS PI inp s)

/-- The published outputs of a tick. -/
structure MRAS_OUTPUTS where
  omegaRotor : Int
  omegaRotorFil : Int
  ImrEstim : Int
  omegaSlip : Int
  omegaSyn_fil : Int
  qRho : Int
  reactivePowerRef : MRAS_ESTIMATOR_Reactive_Power
  reactivePowerEst : MRAS_ESTIMATOR_Reactive_Power
  deriving DecidableEq

/-- The published outputs held by an estimator state. -/
def MRAS_outputs (s : MCAPP_ESTIMATOR_MRAS_T) : MRAS_OUTPUTS :=
  ⟨s.omegaRotor, s.omegaRotorFil, s.ImrEstim, s.omegaSlip, s.omegaSyn_fil, s.qRho,
    s.reactivePowerRef, s.reactivePowerEst⟩

/-- Agreement of two estimator states on every configuration member: the motor parameters and
their scale exponents, the gains, the sample period, the inverse rotor time constant, the
coefficients of both filters and the PI gains. -/
def SameConfig (a b : MCAPP_ESTIMATOR_MRAS_T) : Prop :=
  a.Ls = b.Ls ∧ a.sigmaLs = b.sigmaLs ∧ a.LsScale = b.LsScale ∧
  a.sigmaLsScale = b.sigmaLsScale ∧ a.qOmegaFiltConst = b.qOmegaFiltConst ∧
  a.qImrEstimFilterK = b.qImrEstimFilterK ∧ a.qDeltaT = b.qDeltaT ∧ a.InvTr = b.InvTr ∧
  a.LPF_MRAS_omegaSyn.X_Coeff = b.LPF_MRAS_omegaSyn.X_Coeff ∧
  a.LPF_MRAS_omegaSyn.Y_Coeff = b.LPF_MRAS_omegaSyn.Y_Coeff ∧
  a.LPF_MRAS_omegaR.X_Coeff = b.LPF_MRAS_omegaR.X_Coeff ∧
  a.LPF_MRAS_omegaR.Y_Coeff = b.LPF_MRAS_omegaR.Y_Coeff ∧
  a.MRAS_PISTATE.gains = b.MRAS_PISTATE.gains

instance (a b : MCAPP_ESTIMATOR_MRAS_T) : Decidable (SameConfig a b) := by
  unfold SameConfig; infer_instance

/-! ## The spec's wording of the saturating primitives -/

/-- The spec's saturating multiply-rescale: `satmul(a, b) = clamp16((a*b) >> 15)`. -/
def satmul (a b : Int) : Int := clamp16 (asr (a * b) 15)

/-- The spec's saturating addition: `satadd(a, b) = clamp16(a + b)`. -/
def satadd (a b : Int) : Int := clamp16 (a + b)

/-- The filter output in the spec's words: the three saturating products "summed with
saturation at each step". -/
def LPF_specOutput (lpf : LPF) : Int :=
  satadd (satadd (satmul lpf.Y_prev lpf.Y_Coeff) (satmul lpf.X_Coeff lpf.X))
    (satmul lpf.X_Coeff lpf.X_prev)

/-! ## Concrete data used by the evaluations -/

/-- A PI primitive that leaves its state alone and writes 0. -/
def stubPI : PIPrimitive := fun _ _ st _ _ => (st, 0)

/-- A configured estimator with every run-time member at zero. -/
def cfgState : MCAPP_ESTIMATOR_MRAS_T where
  sigmaLs := 8192
  Ls := 16384
  sigmaLsScale := 15
  LsScale := 15
  idSquare := 0
  iqSquare := 0
  idSquareLs := 0
  iqSquareSigmaLs := 0
  omegaPetrub := 0
  omegaRef := 0
  omegaSyn := 0
  omegaSyn_fil := 0
  omegaSlip := 0
  omegaRotor := 0
  omegaRotorFil := 0
  qOmegaFiltConst := 16384
  qOmegaRotorStateVar := 0
  qRho := 0
  qRhoStateVar := 0
  qDeltaT := 1000
  ImrEstim := 0
  InvTr := 1638
  qImrEstimFilterK := 16384
  ImrEstimStateVar := 0
  isdq := ⟨0, 0⟩
  vdq := ⟨0, 0⟩
  reactivePowerRef := ⟨0, 0, 0⟩
  reactivePowerEst := ⟨0, 0, 0⟩
  MRAS_PISTATE := ⟨0, [100, 10]⟩
  LPF_MRAS_omegaR := ⟨0, 0, 0, 0, 4096, 24576⟩
  LPF_MRAS_omegaSyn := ⟨0, 0, 0, 0, 4096, 24576⟩

/-- All inputs at zero. -/
def zeroInputs : MRAS_INPUTS := ⟨⟨0, 0⟩, ⟨0, 0⟩, ⟨0, 0⟩⟩

/-- The configured estimator as a previous run can leave it: published outputs non-zero. -/
def staleState : MCAPP_ESTIMATOR_MRAS_T :=
  { cfgState with
    omegaRotorFil := 100
    omegaSyn_fil := 200
    ImrEstim := 300
    omegaSlip := 400
    qRho := 500
    omegaPetrub := 600
    omegaRotor := 700 }

/-- Inputs with reference speed 1000 and everything else at zero. -/
def speedRefInputs : MRAS_INPUTS := ⟨⟨0, 0⟩, ⟨0, 0⟩, ⟨1000, 0⟩⟩

/-- Inputs at the corners of the 16-bit range: `Vd = Vq = Id = -32768`, `Iq = 32767`. -/
def cornerInputs : MRAS_INPUTS := ⟨⟨-32768, 32767⟩, ⟨-32768, -32768⟩, ⟨0, 0⟩⟩

/-- Inputs with equal voltages `Vd = Vq = 12000` and equal currents `Id = Iq = 5000`. -/
def symmetricInputs : MRAS_INPUTS := ⟨⟨5000, 5000⟩, ⟨12000, 12000⟩, ⟨1000, 6554⟩⟩

/-- Full-scale positive currents `Id = Iq = 32767`. -/
def fullScaleInputs : MRAS_INPUTS := ⟨⟨32767, 32767⟩, ⟨0, 0⟩, ⟨0, 0⟩⟩

/-- The configured estimator with full-scale inductances and full-scale filtered synchronous
speed. -/
def fullScaleState : MCAPP_ESTIMATOR_MRAS_T :=
  { cfgState with
    Ls := 32767
    sigmaLs := 32767
    omegaSyn_fil := 32767 }

/-- Full-scale negative currents `Id = Iq = -32768`. -/
def negFullScaleInputs : MRAS_INPUTS := ⟨⟨-32768, -32768⟩, ⟨0, 0⟩, ⟨0, 0⟩⟩

/-- The configured estimator with full-scale inductances and filtered synchronous speed
-32768. -/
def negFullScaleState : MCAPP_ESTIMATOR_MRAS_T :=
  { cfgState with
    Ls := 32767
    sigmaLs := 32767
    omegaSyn_fil := -32768 }

/-- Inputs with `Iq = 1000` and a zero reference d current, so that the magnetizing-current
estimate of the configured zero state stays at 0. -/
def noFluxInputs : MRAS_INPUTS := ⟨⟨0, 1000⟩, ⟨0, 0⟩, ⟨0, 0⟩⟩

/-- Inputs with `Iq = 1638` and reference d current 6554 (0.20 per unit). -/
def fluxInputs : MRAS_INPUTS := ⟨⟨0, 1638⟩, ⟨0, 0⟩, ⟨0, 6554⟩⟩

/-- A filter at full scale: `Y_prev = X = 32767`, `X_prev = 0`, both coefficients 32767. -/
def lpfFullScale : LPF := ⟨0, 32767, 32767, 0, 32767, 32767⟩

/-- A filter in its normal range: `Y_prev = 1000`, `X = 2000`, `X_prev = 1500`,
`X_Coeff = 4096`, `Y_Coeff = 24576`. -/
def lpfNominal : LPF := ⟨1000, 1000, 2000, 1500, 4096, 24576⟩

/-- The configured estimator with the phase accumulator just below `2^30`
(`qRhoStateVar = 2^30 - 1000`, angle 32767). -/
def nearWrapState : MCAPP_ESTIMATOR_MRAS_T :=
  { cfgState with
    qRhoStateVar := 1073740824
    qRho := 32767 }

/-- The origin of the estimator: the three accumulators, `omegaRotorFil`, `omegaSyn_fil`,
`ImrEstim`, the PI integrator and `X`, `X_prev`, `Y`, `Y_prev` of `LPF_MRAS_omegaSyn` are
zero.  The configuration members are unconstrained. -/
def AtOrigin (s : MCAPP_ESTIMATOR_MRAS_T) : Prop :=
  s.qOmegaRotorStateVar = 0 ∧ s.ImrEstimStateVar = 0 ∧ s.qRhoStateVar = 0 ∧
  s.omegaRotorFil = 0 ∧ s.omegaSyn_fil = 0 ∧ s.ImrEstim = 0 ∧
  s.MRAS_PISTATE.integrator = 0 ∧
  s.LPF_MRAS_omegaSyn.X = 0 ∧ s.LPF_MRAS_omegaSyn.X_prev = 0 ∧
  s.LPF_MRAS_omegaSyn.Y = 0 ∧ s.LPF_MRAS_omegaSyn.Y_prev = 0

instance (s : MCAPP_ESTIMATOR_MRAS_T) : Decidable (AtOrigin s) := by
  unfold AtOrigin; infer_instance

/-- A PI primitive at rest: called with process value 0, setpoint 0 and a state whose
integrator is 0 (saturation mode none, feed-forward 0, as the estimator calls it), it writes
output 0 and leaves the integrator at 0. -/
def PIRestsAtZero (PI : PIPrimitive) : Prop :=
  ∀ st : MCAPP_PISTATE_T, st.integrator = 0 →
    (PI 0 0 st MCAPP_SAT_STATE.MCAPP_SAT_NONE 0).2 = 0 ∧
    (PI 0 0 st MCAPP_SAT_STATE.MCAPP_SAT_NONE 0).1.integrator = 0

/-- The configured estimator with filtered rotor speed -20000 and the accumulator in agreement
with it (`-20000 * 2^15`). -/
def farState : MCAPP_ESTIMATOR_MRAS_T :=
  { cfgState with
    omegaRotorFil := -20000
    qOmegaRotorStateVar := -655360000 }

/-- Inputs with reference speed 20000 and everything else at zero. -/
def farInputs : MRAS_INPUTS := ⟨⟨0, 0⟩, ⟨0, 0⟩, ⟨20000, 0⟩⟩

/-- The configured estimator with magnetizing-current estimate 1000 and the accumulator in
agreement with it (`1000 * 2^15 + 5`). -/
def fluxState : MCAPP_ESTIMATOR_MRAS_T :=
  { cfgState with
    ImrEstim := 1000
    ImrEstimStateVar := 32768005 }

/-- One use of the filter as the estimator uses it (lines 165-166): store the new input in `X`,
then call `MCAPP_MRAS_LowPassFilter`. -/
def LPF_feed (x : Int) (lpf : LPF) : LPF :=
  (MCAPP_MRAS_LowPassFilter { lpf with X := x }).1

/-- No intermediate value of one `MCAPP_MRAS_LowPassFilter` call on `lpf` leaves the signed
16-bit range: the three rescaled products and the two partial sums. -/
def LPF_NoOverflow (lpf : LPF) : Prop :=
  InS16 (asr (lpf.Y_prev * lpf.Y_Coeff) 15) ∧
  InS16 (asr (lpf.X_Coeff * lpf.X) 15) ∧
  InS16 (asr (lpf.X_Coeff * lpf.X_prev) 15) ∧
  InS16 (asr (lpf.Y_prev * lpf.Y_Coeff) 15 + asr (lpf.X_Coeff * lpf.X) 15) ∧
  InS16 (asr (lpf.Y_prev * lpf.Y_Coeff) 15 + asr (lpf.X_Coeff * lpf.X) 15 +
    asr (lpf.X_Coeff * lpf.X_prev) 15)

instance (lpf : LPF) : Decidable (LPF_NoOverflow lpf) := by
  unfold LPF_NoOverflow; infer_instance

/-! # Theorems -/

/-! ## Arithmetic lemmas -/

theorem toS16_eq_self_iff (x : Int) : toS16 x = x ↔ InS16 x := by
  unfold toS16 InS16
  omega

theorem toS16_inS16 (x : Int) : InS16 (toS16 x) := by
  unfold toS16 InS16
  omega

theorem clamp16_inS16 (x : Int) : InS16 (clamp16 x) := by
  unfold clamp16 InS16
  split_ifs <;> omega

theorem clamp16_of_inS16 {x : Int} (h : InS16 x) : clamp16 x = x := by
  unfold clamp16
  unfold InS16 at h
  split_ifs <;> omega

/-- On the sum or difference of two 16-bit values, wrapping and clamping agree exactly when
the value fits in 16 bits. -/
theorem toS16_eq_clamp16_iff {x : Int} (hlo : -65536 ≤ x) (hhi : x ≤ 65535) :
    toS16 x = clamp16 x ↔ InS16 x := by
  unfold toS16 clamp16 InS16
  split_ifs <;> omega

/-! ## Initialisation -/

/-- C1: after `MCAPP_EstimatorMRASInit` the three 32-bit accumulators, the PI integrator and
the members `X`, `X_prev`, `Y`, `Y_prev` of both low-pass filter instances are zero, whatever
the state before. -/
theorem init_zeroes_accumulators_and_filter_state (s : MCAPP_ESTIMATOR_MRAS_T) :
    (MCAPP_EstimatorMRASInit s).qOmegaRotorStateVar = 0 ∧
    (MCAPP_EstimatorMRASInit s).ImrEstimStateVar = 0 ∧
    (MCAPP_EstimatorMRASInit s).qRhoStateVar = 0 ∧
    (MCAPP_EstimatorMRASInit s).MRAS_PISTATE.integrator = 0 ∧
    (MCAPP_EstimatorMRASInit s).LPF_MRAS_omegaSyn.X = 0 ∧
    (MCAPP_EstimatorMRASInit s).LPF_MRAS_omegaSyn.X_prev = 0 ∧
    (MCAPP_EstimatorMRASInit s).LPF_MRAS_omegaSyn.Y = 0 ∧
    (MCAPP_EstimatorMRASInit s).LPF_MRAS_omegaSyn.Y_prev = 0 ∧
    (MCAPP_EstimatorMRASInit s).LPF_MRAS_omegaR.X = 0 ∧
    (MCAPP_EstimatorMRASInit s).LPF_MRAS_omegaR.X_prev = 0 ∧
    (MCAPP_EstimatorMRASInit s).LPF_MRAS_omegaR.Y = 0 ∧
    (MCAPP_EstimatorMRASInit s).LPF_MRAS_omegaR.Y_prev = 0 := by
  refine ⟨rfl, rfl, rfl, rfl, rfl, rfl, rfl, rfl, rfl, rfl, rfl, rfl⟩

/-- C2 (evaluation of the code): `MCAPP_EstimatorMRASInit` zeroes the raw rotor speed but
leaves the filtered rotor speed, the filtered synchronous speed, the magnetizing-current
estimate, the slip speed, the angle and the correction term at the values of the previous
run. -/
theorem init_leaves_published_outputs_stale :
    (MCAPP_EstimatorMRASInit staleState).omegaRotor = 0 ∧
    (MCAPP_EstimatorMRASInit staleState).omegaRotorFil = 100 ∧
    (MCAPP_EstimatorMRASInit staleState).omegaSyn_fil = 200 ∧
    (MCAPP_EstimatorMRASInit staleState).ImrEstim = 300 ∧
    (MCAPP_EstimatorMRASInit staleState).omegaSlip = 400 ∧
    (MCAPP_EstimatorMRASInit staleState).qRho = 500 ∧
    (MCAPP_EstimatorMRASInit staleState).omegaPetrub = 600 := by
  decide

/-- C3 (evaluation of the code): two states with the same configuration, reset by
`MCAPP_EstimatorMRASInit` and driven by the same PI primitive and the same one-tick input
sequence, publish different outputs: the state left by a previous run yields a filtered rotor
speed of -50 and a magnetizing-current estimate of -150 where the fresh state yields 0. -/
theorem reset_keeps_history_of_previous_run :
    SameConfig cfgState staleState ∧
    (MRAS_run stubPI [zeroInputs] (MCAPP_EstimatorMRASInit cfgState)).map MRAS_outputs ≠
      (MRAS_run stubPI [zeroInputs] (MCAPP_EstimatorMRASInit staleState)).map MRAS_outputs ∧
    (MCAPP_EstimatorMRAS stubPI zeroInputs (MCAPP_EstimatorMRASInit cfgState)).omegaRotorFil
      = 0 ∧
    (MCAPP_EstimatorMRAS stubPI zeroInputs (MCAPP_EstimatorMRASInit staleState)).omegaRotorFil
      = -50 ∧
    (MCAPP_EstimatorMRAS stubPI zeroInputs (MCAPP_EstimatorMRASInit staleState)).ImrEstim
      = -150 := by
  decide

/-! ## Synchronous speed -/

/-- C4 (counterexample): from the configured zero state with reference speed 1000 the update
writes `omegaSyn = 1000` into the filter input, while the filtered rotor speed of this tick is
500 and the slip speed is 0: the synchronous speed is not filtered rotor speed plus slip. -/
theorem omegaSyn_is_not_filtered_speed_plus_slip :
    (MCAPP_EstimatorMRAS stubPI speedRefInputs cfgState).omegaSyn = 1000 ∧
    (MCAPP_EstimatorMRAS stubPI speedRefInputs cfgState).LPF_MRAS_omegaSyn.X = 1000 ∧
    (MCAPP_EstimatorMRAS stubPI speedRefInputs cfgState).omegaRotorFil = 500 ∧
    (MCAPP_EstimatorMRAS stubPI speedRefInputs cfgState).omegaSlip = 0 ∧
    (MCAPP_EstimatorMRAS stubPI speedRefInputs cfgState).omegaSyn ≠
      (MCAPP_EstimatorMRAS stubPI speedRefInputs cfgState).omegaRotorFil +
        (MCAPP_EstimatorMRAS stubPI speedRefInputs cfgState).omegaSlip := by
  decide

/-- C4 (amended): after one update the synchronous speed `omegaSyn`, which is also the value
held by `LPF_MRAS_omegaSyn.X`, is the raw rotor speed `omegaRotor` of this tick plus the slip
speed of this tick, reduced to 16 bits; it is the exact sum precisely when the sum fits in
16 bits. -/
theorem omegaSyn_is_raw_speed_plus_slip (PI : PIPrimitive) (inp : MRAS_INPUTS)
    (s : MCAPP_ESTIMATOR_MRAS_T) :
    (MCAPP_EstimatorMRAS PI inp s).omegaSyn =
      toS16 ((MCAPP_EstimatorMRAS PI inp s).omegaRotor +
        (MCAPP_EstimatorMRAS PI inp s).omegaSlip) ∧
    (MCAPP_EstimatorMRAS PI inp s).LPF_MRAS_omegaSyn.X =
      (MCAPP_EstimatorMRAS PI inp s).omegaSyn ∧
    ((MCAPP_EstimatorMRAS PI inp s).omegaSyn =
        (MCAPP_EstimatorMRAS PI inp s).omegaRotor + (MCAPP_EstimatorMRAS PI inp s).omegaSlip ↔
      InS16 ((MCAPP_EstimatorMRAS PI inp s).omegaRotor +
        (MCAPP_EstimatorMRAS PI inp s).omegaSlip)) := by
  refine ⟨rfl, rfl, ?_⟩
  exact toS16_eq_self_iff _

/-! ## Reactive power -/

theorem asr_eq_div (x : Int) : asr x 15 = x / 32768 := by
  unfold asr
  rw [Int.shiftRight_eq_div_pow]
  norm_num

theorem mulSelf_shr15_bounds {a : Int} (hlo : -32767 ≤ a) (hhi : a ≤ 32767) :
    0 ≤ asr (a * a) 15 ∧ asr (a * a) 15 ≤ 32766 := by
  have h0 : 0 ≤ a * a := mul_self_nonneg a
  have h1 : a * a ≤ 32767 * 32767 := by nlinarith
  rw [asr_eq_div]
  omega

/-- C5 (counterexample): with `Vq = Id = Vd = -32768` and `Iq = 32767` the two terms are
32767 and -32767; the code stores their difference as -2, the saturated difference is
32767. -/
theorem refFinalTerm_is_not_saturated :
    (MCAPP_EstimatorMRAS stubPI cornerInputs cfgState).reactivePowerRef.First_Term = 32767 ∧
    (MCAPP_EstimatorMRAS stubPI cornerInputs cfgState).reactivePowerRef.Second_Term = -32767 ∧
    (MCAPP_EstimatorMRAS stubPI cornerInputs cfgState).reactivePowerRef.Final_term = -2 ∧
    (MCAPP_EstimatorMRAS stubPI cornerInputs cfgState).reactivePowerRef.Final_term ≠
      clamp16
        ((MCAPP_EstimatorMRAS stubPI cornerInputs cfgState).reactivePowerRef.First_Term -
          (MCAPP_EstimatorMRAS stubPI cornerInputs cfgState).reactivePowerRef.Second_Term) := by
  decide

/-- C5 (amended): after one update `reactivePowerRef.First_Term = clamp16((Vq*Id) >> 15)`,
`reactivePowerRef.Second_Term = clamp16((Vd*Iq) >> 15)`, and `reactivePowerRef.Final_term` is
their difference reduced to 16 bits by two's-complement wrap-around; it equals the saturated
difference `clamp16(First_Term - Second_Term)` exactly when the difference fits in 16 bits. -/
theorem refReactivePower_terms (PI : PIPrimitive) (inp : MRAS_INPUTS)
    (s : MCAPP_ESTIMATOR_MRAS_T) :
    (MCAPP_EstimatorMRAS PI inp s).reactivePowerRef.First_Term =
      clamp16 (asr (inp.pVdq.q * inp.pIdq.d) 15) ∧
    (MCAPP_EstimatorMRAS PI inp s).reactivePowerRef.Second_Term =
      clamp16 (asr (inp.pVdq.d * inp.pIdq.q) 15) ∧
    (MCAPP_EstimatorMRAS PI inp s).reactivePowerRef.Final_term =
      toS16 ((MCAPP_EstimatorMRAS PI inp s).reactivePowerRef.First_Term -
        (MCAPP_EstimatorMRAS PI inp s).reactivePowerRef.Second_Term) ∧
    ((MCAPP_EstimatorMRAS PI inp s).reactivePowerRef.Final_term =
        clamp16 ((MCAPP_EstimatorMRAS PI inp s).reactivePowerRef.First_Term -
          (MCAPP_EstimatorMRAS PI inp s).reactivePowerRef.Second_Term) ↔
      InS16 ((MCAPP_EstimatorMRAS PI inp s).reactivePowerRef.First_Term -
        (MCAPP_EstimatorMRAS PI inp s).reactivePowerRef.Second_Term)) := by
  refine ⟨rfl, rfl, rfl, ?_⟩
  have h1 := clamp16_inS16 (asr (inp.pVdq.q * inp.pIdq.d) 15)
  have h2 := clamp16_inS16 (asr (inp.pVdq.d * inp.pIdq.q) 15)
  unfold InS16 at h1 h2
  show toS16 (clamp16 (asr (inp.pVdq.q * inp.pIdq.d) 15) -
      clamp16 (asr (inp.pVdq.d * inp.pIdq.q) 15)) = _ ↔ _
  exact toS16_eq_clamp16_iff (by omega) (by omega)

/-- C6: when `Vd = Vq` and `Id = Iq`, after one update the two terms of the reference
reactive power are equal and `reactivePowerRef.Final_term` is 0. -/
theorem refReactivePower_symmetry (PI : PIPrimitive) (inp : MRAS_INPUTS)
    (s : MCAPP_ESTIMATOR_MRAS_T) (hV : inp.pVdq.d = inp.pVdq.q) (hI : inp.pIdq.d = inp.pIdq.q) :
    (MCAPP_EstimatorMRAS PI inp s).reactivePowerRef.First_Term =
      (MCAPP_EstimatorMRAS PI inp s).reactivePowerRef.Second_Term ∧
    (MCAPP_EstimatorMRAS PI inp s).reactivePowerRef.Final_term = 0 := by
  have hterms : UTIL_SatShrS16 (builtin_mulss inp.pVdq.q inp.pIdq.d) 15 =
      UTIL_SatShrS16 (builtin_mulss inp.pVdq.d inp.pIdq.q) 15 := by
    rw [hV, hI]
  refine ⟨hterms, ?_⟩
  show toS16 (UTIL_SatShrS16 (builtin_mulss inp.pVdq.q inp.pIdq.d) 15 -
      UTIL_SatShrS16 (builtin_mulss inp.pVdq.d inp.pIdq.q) 15) = 0
  rw [hterms, sub_self]
  rfl

/-- C6 (witness): `Vd = Vq = 12000`, `Id = Iq = 5000`. -/
theorem refReactivePower_symmetry_witness :
    symmetricInputs.pVdq.d = symmetricInputs.pVdq.q ∧
    symmetricInputs.pIdq.d = symmetricInputs.pIdq.q ∧
    (MCAPP_EstimatorMRAS stubPI symmetricInputs cfgState).reactivePowerRef.First_Term =
      (MCAPP_EstimatorMRAS stubPI symmetricInputs cfgState).reactivePowerRef.Second_Term ∧
    (MCAPP_EstimatorMRAS stubPI symmetricInputs cfgState).reactivePowerRef.Final_term = 0 :=
  ⟨rfl, rfl, refReactivePower_symmetry stubPI symmetricInputs cfgState rfl rfl⟩

/-- The plain `>> 15` of a 16 x 16 product stored into a 16-bit member is the saturating
multiply-rescale of the same operands, except for the one product that does not fit:
`-32768 * -32768`. -/
theorem wrap_shr15_eq_clamp_iff {a b : Int} (ha : InS16 a) (hb : InS16 b) :
    toS16 (asr (a * b) 15) = clamp16 (asr (a * b) 15) ↔ ¬ (a = -32768 ∧ b = -32768) := by
  constructor
  · rintro h ⟨h1, h2⟩
    subst h1 h2
    exact absurd h (by decide)
  · intro hne
    obtain ⟨ha1, ha2⟩ := ha
    obtain ⟨hb1, hb2⟩ := hb
    have hlo : -(32768 * 32767) ≤ a * b := by nlinarith
    have hhi : a * b ≤ 32768 * 32767 := by
      by_cases hcase : a = -32768
      · subst hcase
        have hb3 : b ≠ -32768 := fun h => hne ⟨rfl, h⟩
        omega
      · have ha3 : -32767 ≤ a := by omega
        nlinarith [mul_nonneg (by linarith : (0 : Int) ≤ a + 32767)
          (by linarith : (0 : Int) ≤ 32767 - b),
          mul_nonneg (by linarith : (0 : Int) ≤ 32767 - a)
          (by linarith : (0 : Int) ≤ b + 32768)]
    have hin : InS16 (asr (a * b) 15) := by
      rw [asr_eq_div]
      unfold InS16
      omega
    rw [(toS16_eq_self_iff _).2 hin, clamp16_of_inS16 hin]

/-- The stored square of a 16-bit value is non-negative except for the value -32768, whose
square `2^30` is stored as -32768. -/
theorem wrap_square_nonneg_iff {a : Int} (ha : InS16 a) :
    0 ≤ toS16 (asr (a * a) 15) ↔ a ≠ -32768 := by
  constructor
  · intro h h1
    subst h1
    exact absurd h (by decide)
  · intro hne
    obtain ⟨ha1, ha2⟩ := ha
    have hb := mulSelf_shr15_bounds (by omega : -32767 ≤ a) ha2
    rw [(toS16_eq_self_iff _).2 ⟨by omega, by omega⟩]
    exact hb.1

/-- C7 (counterexample): with `Id = Iq = -32768`, full-scale inductances, filtered synchronous
speed -32768 and both scale exponents 15, the code stores `idSquare = iqSquare = -32768`, which
is negative and is not the saturating value 32767; the two terms are 32767 each and the code
stores their sum as -2, where the saturated sum is 32767. -/
theorem estReactivePower_is_not_saturating :
    InS16 negFullScaleInputs.pIdq.d ∧ InS16 negFullScaleInputs.pIdq.q ∧
    InS16 negFullScaleState.Ls ∧ InS16 negFullScaleState.sigmaLs ∧
    InS16 negFullScaleState.omegaSyn_fil ∧
    (MCAPP_EstimatorMRAS stubPI negFullScaleInputs negFullScaleState).idSquare = -32768 ∧
    clamp16 (asr (negFullScaleInputs.pIdq.d * negFullScaleInputs.pIdq.d) 15) = 32767 ∧
    (MCAPP_EstimatorMRAS stubPI negFullScaleInputs negFullScaleState).iqSquare = -32768 ∧
    clamp16 (asr (negFullScaleInputs.pIdq.q * negFullScaleInputs.pIdq.q) 15) = 32767 ∧
    ¬ (0 ≤ (MCAPP_EstimatorMRAS stubPI negFullScaleInputs negFullScaleState).idSquare) ∧
    (MCAPP_EstimatorMRAS stubPI negFullScaleInputs negFullScaleState).reactivePowerEst.First_Term
      = 32767 ∧
    (MCAPP_EstimatorMRAS stubPI negFullScaleInputs negFullScaleState).reactivePowerEst.Second_Term
      = 32767 ∧
    (MCAPP_EstimatorMRAS stubPI negFullScaleInputs negFullScaleState).reactivePowerEst.Final_term
      = -2 ∧
    (MCAPP_EstimatorMRAS stubPI negFullScaleInputs negFullScaleState).reactivePowerEst.Final_term
      ≠ clamp16
        ((MCAPP_EstimatorMRAS stubPI negFullScaleInputs
            negFullScaleState).reactivePowerEst.First_Term
          + (MCAPP_EstimatorMRAS stubPI negFullScaleInputs
              negFullScaleState).reactivePowerEst.Second_Term) := by
  decide

/-- A second evaluation for C7: the sum of the two terms also wraps when no operand is -32768.
With `Id = Iq = 32767`, full-scale inductances and filtered synchronous speed and both scale
exponents 15, the two terms of the estimated reactive power are 32764 each; the code stores
their sum as -8, the saturated sum is 32767. -/
theorem estFinalTerm_is_not_saturated :
    (MCAPP_EstimatorMRAS stubPI fullScaleInputs fullScaleState).reactivePowerEst.First_Term
      = 32764 ∧
    (MCAPP_EstimatorMRAS stubPI fullScaleInputs fullScaleState).reactivePowerEst.Second_Term
      = 32764 ∧
    (MCAPP_EstimatorMRAS stubPI fullScaleInputs fullScaleState).reactivePowerEst.Final_term
      = -8 ∧
    (MCAPP_EstimatorMRAS stubPI fullScaleInputs fullScaleState).reactivePowerEst.Final_term ≠
      clamp16
        ((MCAPP_EstimatorMRAS stubPI fullScaleInputs fullScaleState).reactivePowerEst.First_Term
          + (MCAPP_EstimatorMRAS stubPI fullScaleInputs
              fullScaleState).reactivePowerEst.Second_Term) := by
  decide

/-- C7 (amended): for every state and input, one update stores each factor of the estimated
reactive power as a multiply-rescale truncated to 16 bits: `idSquare = wrap16((Id*Id) >> 15)`,
`idSquareLs = wrap16((idSquare*Ls) >> 15)`, `iqSquare = wrap16((Iq*Iq) >> 15)`,
`iqSquareSigmaLs = wrap16((iqSquare*sigmaLs) >> 15)`.  For operands in the 16-bit range each
factor equals the saturating multiply-rescale `clamp16((a*b) >> 15)` of its operands exactly
when the operands are not both -32768, and `idSquare` (`iqSquare`) is non-negative exactly when
`Id` (`Iq`) is not -32768.  `reactivePowerEst.Final_term` is the sum of the two terms reduced to
16 bits by wrap-around, and equals the saturated sum exactly when the sum fits in 16 bits. -/
theorem estReactivePower_factors (PI : PIPrimitive) (inp : MRAS_INPUTS)
    (s : MCAPP_ESTIMATOR_MRAS_T) :
    (MCAPP_EstimatorMRAS PI inp s).idSquare = toS16 (asr (inp.pIdq.d * inp.pIdq.d) 15) ∧
    (MCAPP_EstimatorMRAS PI inp s).idSquareLs =
      toS16 (asr ((MCAPP_EstimatorMRAS PI inp s).idSquare * s.Ls) 15) ∧
    (MCAPP_EstimatorMRAS PI inp s).iqSquare = toS16 (asr (inp.pIdq.q * inp.pIdq.q) 15) ∧
    (MCAPP_EstimatorMRAS PI inp s).iqSquareSigmaLs =
      toS16 (asr ((MCAPP_EstimatorMRAS PI inp s).iqSquare * s.sigmaLs) 15) ∧
    (InS16 inp.pIdq.d →
      ((MCAPP_EstimatorMRAS PI inp s).idSquare = clamp16 (asr (inp.pIdq.d * inp.pIdq.d) 15) ↔
        inp.pIdq.d ≠ -32768) ∧
      (0 ≤ (MCAPP_EstimatorMRAS PI inp s).idSquare ↔ inp.pIdq.d ≠ -32768)) ∧
    (InS16 inp.pIdq.q →
      ((MCAPP_EstimatorMRAS PI inp s).iqSquare = clamp16 (asr (inp.pIdq.q * inp.pIdq.q) 15) ↔
        inp.pIdq.q ≠ -32768) ∧
      (0 ≤ (MCAPP_EstimatorMRAS PI inp s).iqSquare ↔ inp.pIdq.q ≠ -32768)) ∧
    (InS16 s.Ls →
      ((MCAPP_EstimatorMRAS PI inp s).idSquareLs =
          clamp16 (asr ((MCAPP_EstimatorMRAS PI inp s).idSquare * s.Ls) 15) ↔
        ¬ ((MCAPP_EstimatorMRAS PI inp s).idSquare = -32768 ∧ s.Ls = -32768))) ∧
    (InS16 s.sigmaLs →
      ((MCAPP_EstimatorMRAS PI inp s).iqSquareSigmaLs =
          clamp16 (asr ((MCAPP_EstimatorMRAS PI inp s).iqSquare * s.sigmaLs) 15) ↔
        ¬ ((MCAPP_EstimatorMRAS PI inp s).iqSquare = -32768 ∧ s.sigmaLs = -32768))) ∧
    (MCAPP_EstimatorMRAS PI inp s).reactivePowerEst.Final_term =
      toS16 ((MCAPP_EstimatorMRAS PI inp s).reactivePowerEst.First_Term +
        (MCAPP_EstimatorMRAS PI inp s).reactivePowerEst.Second_Term) ∧
    ((MCAPP_EstimatorMRAS PI inp s).reactivePowerEst.Final_term =
        clamp16 ((MCAPP_EstimatorMRAS PI inp s).reactivePowerEst.First_Term +
          (MCAPP_EstimatorMRAS PI inp s).reactivePowerEst.Second_Term) ↔
      InS16 ((MCAPP_EstimatorMRAS PI inp s).reactivePowerEst.First_Term +
        (MCAPP_EstimatorMRAS PI inp s).reactivePowerEst.Second_Term)) := by
  have e1 : (MCAPP_EstimatorMRAS PI inp s).idSquare =
      toS16 (asr (inp.pIdq.d * inp.pIdq.d) 15) := rfl
  have e2 : (MCAPP_EstimatorMRAS PI inp s).iqSquare =
      toS16 (asr (inp.pIdq.q * inp.pIdq.q) 15) := rfl
  have e3 : (MCAPP_EstimatorMRAS PI inp s).idSquareLs =
      toS16 (asr ((MCAPP_EstimatorMRAS PI inp s).idSquare * s.Ls) 15) := rfl
  have e4 : (MCAPP_EstimatorMRAS PI inp s).iqSquareSigmaLs =
      toS16 (asr ((MCAPP_EstimatorMRAS PI inp s).iqSquare * s.sigmaLs) 15) := rfl
  have hsq : ∀ a : Int, InS16 a →
      (toS16 (asr (a * a) 15) = clamp16 (asr (a * a) 15) ↔ a ≠ -32768) := by
    intro a ha
    rw [wrap_shr15_eq_clamp_iff ha ha]
    constructor
    · intro h h1
      exact h ⟨h1, h1⟩
    · intro h h1
      exact h h1.1
  refine ⟨e1, e3, e2, e4, ?_, ?_, ?_, ?_, rfl, ?_⟩
  · intro hd
    rw [e1]
    exact ⟨hsq _ hd, wrap_square_nonneg_iff hd⟩
  · intro hq
    rw [e2]
    exact ⟨hsq _ hq, wrap_square_nonneg_iff hq⟩
  · intro hLs
    rw [e3]
    refine wrap_shr15_eq_clamp_iff ?_ hLs
    rw [e1]
    exact toS16_inS16 _
  · intro hsLs
    rw [e4]
    refine wrap_shr15_eq_clamp_iff ?_ hsLs
    rw [e2]
    exact toS16_inS16 _
  · have h1 := clamp16_inS16 (asr (builtin_mulss (MCAPP_EstimatorMRAS PI inp s).idSquareLs
        s.omegaSyn_fil) (s.LsScale % 65536).toNat)
    have h2 := clamp16_inS16 (asr (builtin_mulss (MCAPP_EstimatorMRAS PI inp s).iqSquareSigmaLs
        s.omegaSyn_fil) (s.sigmaLsScale % 65536).toNat)
    unfold InS16 at h1 h2
    show toS16 (clamp16 (asr (builtin_mulss (MCAPP_EstimatorMRAS PI inp s).idSquareLs
        s.omegaSyn_fil) (s.LsScale % 65536).toNat) +
      clamp16 (asr (builtin_mulss (MCAPP_EstimatorMRAS PI inp s).iqSquareSigmaLs
        s.omegaSyn_fil) (s.sigmaLsScale % 65536).toNat)) = _ ↔ _
    exact toS16_eq_clamp16_iff (by omega) (by omega)

/-- C7 (witness): `Id = Iq = 5000` on the configured estimator, where every operand is in the
16-bit range and none is -32768: `idSquare` is 762, non-negative and equal to the saturating
value, and `idSquareLs` is 381. -/
theorem estReactivePower_factors_witness :
    InS16 symmetricInputs.pIdq.d ∧ InS16 cfgState.Ls ∧
    (MCAPP_EstimatorMRAS stubPI symmetricInputs cfgState).idSquare = 762 ∧
    (MCAPP_EstimatorMRAS stubPI symmetricInputs cfgState).idSquareLs = 381 ∧
    ((MCAPP_EstimatorMRAS stubPI symmetricInputs cfgState).idSquare =
        clamp16 (asr (symmetricInputs.pIdq.d * symmetricInputs.pIdq.d) 15) ↔
      symmetricInputs.pIdq.d ≠ -32768) ∧
    (0 ≤ (MCAPP_EstimatorMRAS stubPI symmetricInputs cfgState).idSquare ↔
      symmetricInputs.pIdq.d ≠ -32768) ∧
    ((MCAPP_EstimatorMRAS stubPI symmetricInputs cfgState).idSquareLs =
        clamp16 (asr ((MCAPP_EstimatorMRAS stubPI symmetricInputs cfgState).idSquare *
          cfgState.Ls) 15) ↔
      ¬ ((MCAPP_EstimatorMRAS stubPI symmetricInputs cfgState).idSquare = -32768 ∧
        cfgState.Ls = -32768)) :=
  ⟨by decide, by decide, by decide, by decide,
    ((estReactivePower_factors stubPI symmetricInputs cfgState).2.2.2.2.1 (by decide)).1,
    ((estReactivePower_factors stubPI symmetricInputs cfgState).2.2.2.2.1 (by decide)).2,
    (estReactivePower_factors stubPI symmetricInputs cfgState).2.2.2.2.2.2.1 (by decide)⟩

/-! ## The PI invocation -/

theorem slipSpeed_guard (inp : MRAS_INPUTS) (s : MCAPP_ESTIMATOR_MRAS_T) :
    (s.ImrEstim ≤ 0 → (MRAS_slipSpeed inp s).1.omegaSlip = 0 ∧ (MRAS_slipSpeed inp s).2 = []) ∧
    (∀ c ∈ (MRAS_slipSpeed inp s).2, 0 < c.den ∧ c.den = s.ImrEstim) := by
  unfold MRAS_slipSpeed callDivsd
  dsimp only
  by_cases h : s.ImrEstim > 0
  · rw [if_pos h]
    refine ⟨fun h0 => absurd h (by omega), ?_⟩
    intro c hc
    rw [List.mem_singleton] at hc
    subst hc
    exact ⟨h, rfl⟩
  · rw [if_neg h]
    refine ⟨fun _ => ⟨rfl, rfl⟩, ?_⟩
    intro c hc
    cases hc

/-- C9: if the magnetizing-current estimate computed on this tick is not positive, the slip
speed after the update is exactly 0 and no division is evaluated; and every division that an
update does evaluate has this tick's `ImrEstim` as divisor, which is then strictly positive. -/
theorem slip_guard (PI : PIPrimitive) (inp : MRAS_INPUTS) (s : MCAPP_ESTIMATOR_MRAS_T) :
    ((MCAPP_EstimatorMRAS PI inp s).ImrEstim ≤ 0 →
      (MCAPP_EstimatorMRAS PI inp s).omegaSlip = 0 ∧
        (MCAPP_EstimatorMRAS_trace PI inp s).divCalls = []) ∧
    (∀ c ∈ (MCAPP_EstimatorMRAS_trace PI inp s).divCalls,
      0 < c.den ∧ c.den = (MCAPP_EstimatorMRAS PI inp s).ImrEstim) :=
  slipSpeed_guard inp
    (MRAS_magnetizingCurrent inp (MRAS_rotorSpeedFilter
      (MRAS_adaptiveCorrection PI inp
        (MRAS_estReactivePower inp (MRAS_refReactivePower inp s))).1))

/-- C9 (witness): with zero flux reference the estimate is 0 and the slip is forced to 0 although
`Iq = 1000`; with flux reference 6554 the estimate is 3277 and the one division evaluated has
divisor 3277. -/
theorem slip_guard_witness :
    ((MCAPP_EstimatorMRAS stubPI noFluxInputs cfgState).ImrEstim ≤ 0 ∧
      (MCAPP_EstimatorMRAS stubPI noFluxInputs cfgState).omegaSlip = 0) ∧
    ((⟨2683044, 3277⟩ : DivCall) ∈ (MCAPP_EstimatorMRAS_trace stubPI fluxInputs cfgState).divCalls ∧
      0 < (3277 : Int)) :=
  ⟨⟨by decide, ((slip_guard stubPI noFluxInputs cfgState).1 (by decide)).1⟩,
    ⟨by decide, ((slip_guard stubPI fluxInputs cfgState).2 ⟨2683044, 3277⟩ (by decide)).1⟩⟩

/-! ## The bilinear low-pass filter -/

theorem satmul_bounds {a b : Int} (ha : InS16 a) (hb : InS16 b) :
    -32767 ≤ satmul a b ∧ satmul a b ≤ 32767 := by
  obtain ⟨ha1, ha2⟩ := ha
  obtain ⟨hb1, hb2⟩ := hb
  have h1 : -(32768 * 32767) ≤ a * b := by nlinarith
  have h2 := clamp16_inS16 (asr (a * b) 15)
  unfold satmul
  refine ⟨?_, h2.2⟩
  rw [asr_eq_div]
  unfold clamp16
  split_ifs <;> omega

theorem wrap_sum3_eq_sat_iff {a b c : Int} (ha : -32767 ≤ a ∧ a ≤ 32767)
    (hb : -32767 ≤ b ∧ b ≤ 32767) (hc : -32767 ≤ c ∧ c ≤ 32767) :
    toS16 (a + b + c) = satadd (satadd a b) c ↔ InS16 (a + b) ∧ InS16 (a + b + c) := by
  unfold satadd clamp16 toS16 InS16
  split_ifs <;> omega

/-- C10 (counterexample): with `Y_prev = X = 32767`, `X_prev = 0` and both coefficients 32767
the three products are 32766, 32766 and 0; the code returns and stores -4, the sum saturated at
each step is 32767. -/
theorem lowPassFilter_sum_is_not_saturated :
    (MCAPP_MRAS_LowPassFilter lpfFullScale).2 = -4 ∧
    (MCAPP_MRAS_LowPassFilter lpfFullScale).1.Y = -4 ∧
    LPF_specOutput lpfFullScale = 32767 ∧
    (MCAPP_MRAS_LowPassFilter lpfFullScale).2 ≠ LPF_specOutput lpfFullScale := by
  decide

/-- C10 (amended): for filter members in the 16-bit range, `MCAPP_MRAS_LowPassFilter` returns
the value it stores in `Y` (and in `Y_prev`), which is the sum of the three saturating products
`satmul(Y_prev, Y_Coeff) + satmul(X_Coeff, X) + satmul(X_Coeff, X_prev)` reduced to 16 bits by
wrap-around; it equals the sum saturated at each step exactly when both partial sums fit in
16 bits. -/
theorem lowPassFilter_output (lpf : LPF) (hYp : InS16 lpf.Y_prev) (hX : InS16 lpf.X)
    (hXp : InS16 lpf.X_prev) (hXc : InS16 lpf.X_Coeff) (hYc : InS16 lpf.Y_Coeff) :
    (MCAPP_MRAS_LowPassFilter lpf).2 = (MCAPP_MRAS_LowPassFilter lpf).1.Y ∧
    (MCAPP_MRAS_LowPassFilter lpf).1.Y_prev = (MCAPP_MRAS_LowPassFilter lpf).1.Y ∧
    (MCAPP_MRAS_LowPassFilter lpf).1.Y =
      toS16 (satmul lpf.Y_prev lpf.Y_Coeff + satmul lpf.X_Coeff lpf.X +
        satmul lpf.X_Coeff lpf.X_prev) ∧
    ((MCAPP_MRAS_LowPassFilter lpf).2 = LPF_specOutput lpf ↔
      InS16 (satmul lpf.Y_prev lpf.Y_Coeff + satmul lpf.X_Coeff lpf.X) ∧
      InS16 (satmul lpf.Y_prev lpf.Y_Coeff + satmul lpf.X_Coeff lpf.X +
        satmul lpf.X_Coeff lpf.X_prev)) := by
  refine ⟨rfl, rfl, rfl, ?_⟩
  exact wrap_sum3_eq_sat_iff (satmul_bounds hYp hYc) (satmul_bounds hXc hX)
    (satmul_bounds hXc hXp)

/-- C10 (witness): a filter in its normal range, where the output 1187 is also the saturated
sum. -/
theorem lowPassFilter_output_witness :
    InS16 lpfNominal.Y_prev ∧ InS16 lpfNominal.X ∧ InS16 lpfNominal.X_prev ∧
    InS16 lpfNominal.X_Coeff ∧ InS16 lpfNominal.Y_Coeff ∧
    (MCAPP_MRAS_LowPassFilter lpfNominal).1.Y =
      toS16 (satmul lpfNominal.Y_prev lpfNominal.Y_Coeff +
        satmul lpfNominal.X_Coeff lpfNominal.X + satmul lpfNominal.X_Coeff lpfNominal.X_prev) :=
  ⟨by decide, by decide, by decide, by decide, by decide,
    (lowPassFilter_output lpfNominal (by decide) (by decide) (by decide) (by decide)
      (by decide)).2.2.1⟩

/-! ## Frame conditions and consistency of the published values -/

/-- C14: `MCAPP_EstimatorMRASInit` leaves `Ls`, `sigmaLs`, `LsScale`, `sigmaLsScale`,
`qOmegaFiltConst`, `qImrEstimFilterK`, `qDeltaT`, `InvTr` and the coefficients `X_Coeff`,
`Y_Coeff` of both low-pass filter instances at their values before the call, and
`MCAPP_MRAS_InitLowPassFilter` leaves the coefficients of its filter at their values before
the call. -/
theorem init_keeps_configuration (s : MCAPP_ESTIMATOR_MRAS_T) (lpf : LPF) :
    (MCAPP_EstimatorMRASInit s).Ls = s.Ls ∧
    (MCAPP_EstimatorMRASInit s).sigmaLs = s.sigmaLs ∧
    (MCAPP_EstimatorMRASInit s).LsScale = s.LsScale ∧
    (MCAPP_EstimatorMRASInit s).sigmaLsScale = s.sigmaLsScale ∧
    (MCAPP_EstimatorMRASInit s).qOmegaFiltConst = s.qOmegaFiltConst ∧
    (MCAPP_EstimatorMRASInit s).qImrEstimFilterK = s.qImrEstimFilterK ∧
    (MCAPP_EstimatorMRASInit s).qDeltaT = s.qDeltaT ∧
    (MCAPP_EstimatorMRASInit s).InvTr = s.InvTr ∧
    (MCAPP_EstimatorMRASInit s).LPF_MRAS_omegaSyn.X_Coeff = s.LPF_MRAS_omegaSyn.X_Coeff ∧
    (MCAPP_EstimatorMRASInit s).LPF_MRAS_omegaSyn.Y_Coeff = s.LPF_MRAS_omegaSyn.Y_Coeff ∧
    (MCAPP_EstimatorMRASInit s).LPF_MRAS_omegaR.X_Coeff = s.LPF_MRAS_omegaR.X_Coeff ∧
    (MCAPP_EstimatorMRASInit s).LPF_MRAS_omegaR.Y_Coeff = s.LPF_MRAS_omegaR.Y_Coeff ∧
    (MCAPP_MRAS_InitLowPassFilter lpf).X_Coeff = lpf.X_Coeff ∧
    (MCAPP_MRAS_InitLowPassFilter lpf).Y_Coeff = lpf.Y_Coeff :=
  ⟨rfl, rfl, rfl, rfl, rfl, rfl, rfl, rfl, rfl, rfl, rfl, rfl, rfl, rfl⟩

/-- C18: one update leaves unchanged every configuration member (`Ls`, `sigmaLs`, `LsScale`,
`sigmaLsScale`, `qOmegaFiltConst`, `qImrEstimFilterK`, `qDeltaT`, `InvTr`, and `X_Coeff`,
`Y_Coeff` of `LPF_MRAS_omegaSyn`) and the whole rotor-speed filter instance `LPF_MRAS_omegaR`;
the two remaining members outside the PI state, the outputs, the accumulators, the squares and
the synchronous-speed filter, namely `isdq` and `vdq`, are unchanged as well. -/
theorem update_frame (PI : PIPrimitive) (inp : MRAS_INPUTS) (s : MCAPP_ESTIMATOR_MRAS_T) :
    (MCAPP_EstimatorMRAS PI inp s).Ls = s.Ls ∧
    (MCAPP_EstimatorMRAS PI inp s).sigmaLs = s.sigmaLs ∧
    (MCAPP_EstimatorMRAS PI inp s).LsScale = s.LsScale ∧
    (MCAPP_EstimatorMRAS PI inp s).sigmaLsScale = s.sigmaLsScale ∧
    (MCAPP_EstimatorMRAS PI inp s).qOmegaFiltConst = s.qOmegaFiltConst ∧
    (MCAPP_EstimatorMRAS PI inp s).qImrEstimFilterK = s.qImrEstimFilterK ∧
    (MCAPP_EstimatorMRAS PI inp s).qDeltaT = s.qDeltaT ∧
    (MCAPP_EstimatorMRAS PI inp s).InvTr = s.InvTr ∧
    (MCAPP_EstimatorMRAS PI inp s).LPF_MRAS_omegaSyn.X_Coeff = s.LPF_MRAS_omegaSyn.X_Coeff ∧
    (MCAPP_EstimatorMRAS PI inp s).LPF_MRAS_omegaSyn.Y_Coeff = s.LPF_MRAS_omegaSyn.Y_Coeff ∧
    (MCAPP_EstimatorMRAS PI inp s).LPF_MRAS_omegaR = s.LPF_MRAS_omegaR ∧
    (MCAPP_EstimatorMRAS PI inp s).isdq = s.isdq ∧
    (MCAPP_EstimatorMRAS PI inp s).vdq = s.vdq := by
  refine ⟨?_, ?_, ?_, ?_, ?_, ?_, ?_, ?_, ?_, ?_, ?_, ?_, ?_⟩ <;>
    simp only [MCAPP_EstimatorMRAS, MCAPP_EstimatorMRAS_traced, MRAS_syncSpeedAndAngle,
      MRAS_slipSpeed, MRAS_magnetizingCurrent, MRAS_rotorSpeedFilter, MRAS_adaptiveCorrection,
      MRAS_estReactivePower, MRAS_refReactivePower, MCAPP_MRAS_LowPassFilter]

theorem update_keeps_scales (PI : PIPrimitive) (inp : MRAS_INPUTS)
    (s : MCAPP_ESTIMATOR_MRAS_T) :
    (MCAPP_EstimatorMRAS PI inp s).LsScale = s.LsScale ∧
    (MCAPP_EstimatorMRAS PI inp s).sigmaLsScale = s.sigmaLsScale := by
  refine ⟨?_, ?_⟩ <;>
    simp only [MCAPP_EstimatorMRAS, MCAPP_EstimatorMRAS_traced, MRAS_syncSpeedAndAngle,
      MRAS_slipSpeed, MRAS_magnetizingCurrent, MRAS_rotorSpeedFilter, MRAS_adaptiveCorrection,
      MRAS_estReactivePower, MRAS_refReactivePower]

theorem update_est_terms (PI : PIPrimitive) (inp : MRAS_INPUTS) (t : MCAPP_ESTIMATOR_MRAS_T) :
    (MCAPP_EstimatorMRAS PI inp t).reactivePowerEst.First_Term =
      UTIL_SatShrS16 (builtin_mulss (MCAPP_EstimatorMRAS PI inp t).idSquareLs t.omegaSyn_fil)
        t.LsScale ∧
    (MCAPP_EstimatorMRAS PI inp t).reactivePowerEst.Second_Term =
      UTIL_SatShrS16
        (builtin_mulss (MCAPP_EstimatorMRAS PI inp t).iqSquareSigmaLs t.omegaSyn_fil)
        t.sigmaLsScale :=
  ⟨rfl, rfl⟩

/-- C19: after one update `omegaRotorFil`, `ImrEstim` and `qRho` are their 32-bit accumulators
shifted right by 15 and truncated to 16 bits, `omegaRef` is the reference speed input, and
`LPF_MRAS_omegaSyn` holds `X = X_prev = omegaSyn` and `Y = Y_prev = omegaSyn_fil`; both terms
of the estimated reactive power of the next update are computed from this `omegaSyn_fil`. -/
theorem published_values_agree_with_state (PI : PIPrimitive) (inp next : MRAS_INPUTS)
    (s : MCAPP_ESTIMATOR_MRAS_T) :
    (MCAPP_EstimatorMRAS PI inp s).omegaRotorFil =
      toS16 (asr (MCAPP_EstimatorMRAS PI inp s).qOmegaRotorStateVar 15) ∧
    (MCAPP_EstimatorMRAS PI inp s).ImrEstim =
      toS16 (asr (MCAPP_EstimatorMRAS PI inp s).ImrEstimStateVar 15) ∧
    (MCAPP_EstimatorMRAS PI inp s).qRho =
      toS16 (asr (MCAPP_EstimatorMRAS PI inp s).qRhoStateVar 15) ∧
    (MCAPP_EstimatorMRAS PI inp s).omegaRef = inp.pCtrlParam.qVelRef ∧
    (MCAPP_EstimatorMRAS PI inp s).LPF_MRAS_omegaSyn.X =
      (MCAPP_EstimatorMRAS PI inp s).omegaSyn ∧
    (MCAPP_EstimatorMRAS PI inp s).LPF_MRAS_omegaSyn.X_prev =
      (MCAPP_EstimatorMRAS PI inp s).omegaSyn ∧
    (MCAPP_EstimatorMRAS PI inp s).LPF_MRAS_omegaSyn.Y =
      (MCAPP_EstimatorMRAS PI inp s).omegaSyn_fil ∧
    (MCAPP_EstimatorMRAS PI inp s).LPF_MRAS_omegaSyn.Y_prev =
      (MCAPP_EstimatorMRAS PI inp s).omegaSyn_fil ∧
    (MCAPP_EstimatorMRAS PI next (MCAPP_EstimatorMRAS PI inp s)).reactivePowerEst.First_Term =
      UTIL_SatShrS16
        (builtin_mulss (MCAPP_EstimatorMRAS PI next (MCAPP_EstimatorMRAS PI inp s)).idSquareLs
          (MCAPP_EstimatorMRAS PI inp s).omegaSyn_fil) s.LsScale ∧
    (MCAPP_EstimatorMRAS PI next (MCAPP_EstimatorMRAS PI inp s)).reactivePowerEst.Second_Term =
      UTIL_SatShrS16
        (builtin_mulss
          (MCAPP_EstimatorMRAS PI next (MCAPP_EstimatorMRAS PI inp s)).iqSquareSigmaLs
          (MCAPP_EstimatorMRAS PI inp s).omegaSyn_fil) s.sigmaLsScale := by
  have hn := update_est_terms PI next (MCAPP_EstimatorMRAS PI inp s)
  have hs := update_keeps_scales PI inp s
  rw [hs.1, hs.2] at hn
  exact ⟨rfl, rfl, rfl, rfl, rfl, rfl, rfl, rfl, hn.1, hn.2⟩

/-! ## Angle integration -/

theorem update_qRhoStateVar (PI : PIPrimitive) (inp : MRAS_INPUTS)
    (s : MCAPP_ESTIMATOR_MRAS_T) :
    (MCAPP_EstimatorMRAS PI inp s).qRhoStateVar =
      toS32 (s.qRhoStateVar + (MCAPP_EstimatorMRAS PI inp s).omegaSyn_fil * s.qDeltaT) := by
  simp only [MCAPP_EstimatorMRAS, MCAPP_EstimatorMRAS_traced, MRAS_syncSpeedAndAngle,
    MRAS_slipSpeed, MRAS_magnetizingCurrent, MRAS_rotorSpeedFilter, MRAS_adaptiveCorrection,
    MRAS_estReactivePower, MRAS_refReactivePower, builtin_mulss]

theorem wrapped_angle_is_negative {S p : Int} (h0 : 0 ≤ S) (h1 : S < 2 ^ 30)
    (h2 : 2 ^ 30 ≤ S + p) (h3 : S + p < 2 ^ 31) :
    toS16 (asr (toS32 (S + p)) 15) < 0 ∧ toS16 (asr (toS32 (S + p)) 15) < asr S 15 := by
  rw [asr_eq_div, asr_eq_div]
  unfold toS16 toS32
  norm_num at h1 h2 h3
  omega

/-- C12: one update sets `qRhoStateVar` to the old accumulator plus
`omegaSyn_fil * qDeltaT`, with the `omegaSyn_fil` of this tick, reduced modulo `2^32` into the
signed 32-bit range, and `qRho` to `qRhoStateVar >> 15` reduced modulo `2^16` into the signed
16-bit range; whenever the old accumulator `s` and the increment `p` satisfy
`0 <= s < 2^30 <= s + p < 2^31`, the new `qRho` is negative and strictly smaller than the
previous angle `s >> 15`. -/
theorem angle_accumulator_wraps (PI : PIPrimitive) (inp : MRAS_INPUTS)
    (s : MCAPP_ESTIMATOR_MRAS_T) :
    (MCAPP_EstimatorMRAS PI inp s).qRhoStateVar =
      toS32 (s.qRhoStateVar + (MCAPP_EstimatorMRAS PI inp s).omegaSyn_fil * s.qDeltaT) ∧
    (MCAPP_EstimatorMRAS PI inp s).qRho =
      toS16 (asr (MCAPP_EstimatorMRAS PI inp s).qRhoStateVar 15) ∧
    (0 ≤ s.qRhoStateVar → s.qRhoStateVar < 2 ^ 30 →
      2 ^ 30 ≤ s.qRhoStateVar + (MCAPP_EstimatorMRAS PI inp s).omegaSyn_fil * s.qDeltaT →
      s.qRhoStateVar + (MCAPP_EstimatorMRAS PI inp s).omegaSyn_fil * s.qDeltaT < 2 ^ 31 →
      (MCAPP_EstimatorMRAS PI inp s).qRho < 0 ∧
        (MCAPP_EstimatorMRAS PI inp s).qRho < asr s.qRhoStateVar 15) := by
  have hacc := update_qRhoStateVar PI inp s
  have hrho : (MCAPP_EstimatorMRAS PI inp s).qRho =
      toS16 (asr (MCAPP_EstimatorMRAS PI inp s).qRhoStateVar 15) := rfl
  refine ⟨hacc, hrho, ?_⟩
  intro h0 h1 h2 h3
  rw [hrho, hacc]
  exact wrapped_angle_is_negative h0 h1 h2 h3

/-- C12 (witness): from the accumulator `2^30 - 1000` (angle 32767) with reference speed 1000
the filtered synchronous speed is 125, the increment 125000, and the new angle is -32765. -/
theorem angle_accumulator_wraps_witness :
    (0 ≤ nearWrapState.qRhoStateVar ∧ nearWrapState.qRhoStateVar < 2 ^ 30 ∧
      2 ^ 30 ≤ nearWrapState.qRhoStateVar +
        (MCAPP_EstimatorMRAS stubPI speedRefInputs nearWrapState).omegaSyn_fil *
          nearWrapState.qDeltaT ∧
      nearWrapState.qRhoStateVar +
        (MCAPP_EstimatorMRAS stubPI speedRefInputs nearWrapState).omegaSyn_fil *
          nearWrapState.qDeltaT < 2 ^ 31) ∧
    (MCAPP_EstimatorMRAS stubPI speedRefInputs nearWrapState).qRho = -32765 ∧
    ((MCAPP_EstimatorMRAS stubPI speedRefInputs nearWrapState).qRho < 0 ∧
      (MCAPP_EstimatorMRAS stubPI speedRefInputs nearWrapState).qRho <
        asr nearWrapState.qRhoStateVar 15) :=
  ⟨by decide, by decide,
    (angle_accumulator_wraps stubPI speedRefInputs nearWrapState).2.2 (by decide) (by decide)
      (by decide) (by decide)⟩

/-! ## Slip speed -/

theorem update_omegaSlip (PI : PIPrimitive) (inp : MRAS_INPUTS) (s : MCAPP_ESTIMATOR_MRAS_T) :
    (MCAPP_EstimatorMRAS PI inp s).omegaSlip =
      if (MCAPP_EstimatorMRAS PI inp s).ImrEstim > 0 then
        toS16 (Int.tdiv (s.InvTr * inp.pIdq.q) (MCAPP_EstimatorMRAS PI inp s).ImrEstim)
      else 0 := by
  simp only [MCAPP_EstimatorMRAS, MCAPP_EstimatorMRAS_traced, MRAS_syncSpeedAndAngle,
    MRAS_slipSpeed, MRAS_magnetizingCurrent, MRAS_rotorSpeedFilter, MRAS_adaptiveCorrection,
    MRAS_estReactivePower, MRAS_refReactivePower, builtin_mulss, builtin_divsd, callDivsd]
  split_ifs <;> rfl

theorem tdiv_sign {p d : Int} (hd : 0 < d) :
    (0 ≤ p → 0 ≤ Int.tdiv p d) ∧ (p ≤ 0 → Int.tdiv p d ≤ 0) := by
  constructor
  · intro hp
    exact Int.tdiv_nonneg hp (le_of_lt hd)
  · intro hp
    have h := Int.tdiv_nonneg (neg_nonneg.mpr hp) (le_of_lt hd)
    rw [Int.neg_tdiv] at h
    omega

/-- C17: when the magnetizing-current estimate of this tick is positive and the quotient fits
in 16 bits, `omegaSlip` after the update is `(InvTr * Iq) / ImrEstim` truncated toward zero,
with the exact product `InvTr * Iq`; hence it is 0 when `Iq = 0`, non-negative when the product
is non-negative and non-positive when the product is non-positive. -/
theorem slip_is_truncated_quotient (PI : PIPrimitive) (inp : MRAS_INPUTS)
    (s : MCAPP_ESTIMATOR_MRAS_T) (hpos : 0 < (MCAPP_EstimatorMRAS PI inp s).ImrEstim)
    (hfit : InS16 (Int.tdiv (s.InvTr * inp.pIdq.q) (MCAPP_EstimatorMRAS PI inp s).ImrEstim)) :
    (MCAPP_EstimatorMRAS PI inp s).omegaSlip =
      Int.tdiv (s.InvTr * inp.pIdq.q) (MCAPP_EstimatorMRAS PI inp s).ImrEstim ∧
    (inp.pIdq.q = 0 → (MCAPP_EstimatorMRAS PI inp s).omegaSlip = 0) ∧
    (0 ≤ s.InvTr * inp.pIdq.q → 0 ≤ (MCAPP_EstimatorMRAS PI inp s).omegaSlip) ∧
    (s.InvTr * inp.pIdq.q ≤ 0 → (MCAPP_EstimatorMRAS PI inp s).omegaSlip ≤ 0) := by
  have h := update_omegaSlip PI inp s
  rw [if_pos hpos, (toS16_eq_self_iff _).2 hfit] at h
  refine ⟨h, ?_, ?_, ?_⟩
  · intro hq
    rw [h, hq, Int.mul_zero, Int.zero_tdiv]
  · intro hp
    rw [h]
    exact (tdiv_sign hpos).1 hp
  · intro hp
    rw [h]
    exact (tdiv_sign hpos).2 hp

/-- C17 (witness): flux reference 6554 and `Iq = 1638` on the configured estimator: the
estimate is 3277, the product 2683044 and the slip 818. -/
theorem slip_is_truncated_quotient_witness :
    0 < (MCAPP_EstimatorMRAS stubPI fluxInputs cfgState).ImrEstim ∧
    InS16 (Int.tdiv (cfgState.InvTr * fluxInputs.pIdq.q)
      (MCAPP_EstimatorMRAS stubPI fluxInputs cfgState).ImrEstim) ∧
    (MCAPP_EstimatorMRAS stubPI fluxInputs cfgState).omegaSlip = 818 ∧
    (MCAPP_EstimatorMRAS stubPI fluxInputs cfgState).omegaSlip =
      Int.tdiv (cfgState.InvTr * fluxInputs.pIdq.q)
        (MCAPP_EstimatorMRAS stubPI fluxInputs cfgState).ImrEstim :=
  ⟨by decide, by decide, by decide,
    (slip_is_truncated_quotient stubPI fluxInputs cfgState (by decide) (by decide)).1⟩

/-! ## Zero-input fixed point -/

theorem asr_zero (n : Nat) : asr 0 n = 0 := by
  unfold asr
  exact Int.zero_shiftRight n

theorem UTIL_SatShrS16_zero (q : Int) : UTIL_SatShrS16 0 q = 0 := by
  unfold UTIL_SatShrS16
  rw [asr_zero]
  rfl

theorem toS16_zero : toS16 0 = 0 := rfl

theorem toS32_zero : toS32 0 = 0 := rfl

theorem origin_step (PI : PIPrimitive) (s : MCAPP_ESTIMATOR_MRAS_T) (ho : AtOrigin s)
    (hPI : PIRestsAtZero PI) :
    AtOrigin (MCAPP_EstimatorMRAS PI zeroInputs s) ∧
    (MCAPP_EstimatorMRAS PI zeroInputs s).omegaRotor = 0 ∧
    (MCAPP_EstimatorMRAS PI zeroInputs s).omegaSlip = 0 ∧
    (MCAPP_EstimatorMRAS PI zeroInputs s).omegaSyn = 0 ∧
    (MCAPP_EstimatorMRAS PI zeroInputs s).qRho = 0 := by
  obtain ⟨h1, h2, h3, h4, h5, h6, h7, h8, h9, h10, h11⟩ := ho
  obtain ⟨hp1, hp2⟩ := hPI s.MRAS_PISTATE h7
  simp only [AtOrigin, MCAPP_EstimatorMRAS, MCAPP_EstimatorMRAS_traced, MRAS_syncSpeedAndAngle,
    MRAS_slipSpeed, MRAS_magnetizingCurrent, MRAS_rotorSpeedFilter, MRAS_adaptiveCorrection,
    MRAS_estReactivePower, MRAS_refReactivePower, MCAPP_MRAS_LowPassFilter, builtin_mulss,
    callPI, zeroInputs, h1, h2, h3, h4, h5, h6, h9, h11, Int.zero_mul, Int.mul_zero,
    asr_zero, UTIL_SatShrS16_zero, toS16_zero, toS32_zero, Int.sub_self, Int.add_zero,
    lt_irrefl, if_false, hp1, hp2, gt_iff_lt]
  simp only [and_self]

theorem origin_iterate (PI : PIPrimitive) (s : MCAPP_ESTIMATOR_MRAS_T) (ho : AtOrigin s)
    (hPI : PIRestsAtZero PI) (n : Nat) :
    AtOrigin (Nat.iterate (MCAPP_EstimatorMRAS PI zeroInputs) n s) := by
  induction n with
  | zero => exact ho
  | succ m ih =>
    rw [Function.iterate_succ_apply']
    exact (origin_step PI _ ih hPI).1

theorem stubPI_rests_at_zero : PIRestsAtZero stubPI := by
  intro st h
  exact ⟨rfl, h⟩

/-- C11: from the origin, with all inputs zero and a PI primitive that answers (0, 0, integrator
0) with output 0 and integrator 0, after any number `n >= 1` of updates `omegaRotor`,
`omegaRotorFil`, `ImrEstim`, `omegaSlip`, `omegaSyn`, `omegaSyn_fil`, `qRho` and the three
accumulators are zero, whatever the configuration. -/
theorem zero_input_fixed_point (PI : PIPrimitive) (s : MCAPP_ESTIMATOR_MRAS_T)
    (ho : AtOrigin s) (hPI : PIRestsAtZero PI) (n : Nat) (hn : 1 ≤ n) :
    (Nat.iterate (MCAPP_EstimatorMRAS PI zeroInputs) n s).omegaRotor = 0 ∧
    (Nat.iterate (MCAPP_EstimatorMRAS PI zeroInputs) n s).omegaRotorFil = 0 ∧
    (Nat.iterate (MCAPP_EstimatorMRAS PI zeroInputs) n s).ImrEstim = 0 ∧
    (Nat.iterate (MCAPP_EstimatorMRAS PI zeroInputs) n s).omegaSlip = 0 ∧
    (Nat.iterate (MCAPP_EstimatorMRAS PI zeroInputs) n s).omegaSyn = 0 ∧
    (Nat.iterate (MCAPP_EstimatorMRAS PI zeroInputs) n s).omegaSyn_fil = 0 ∧
    (Nat.iterate (MCAPP_EstimatorMRAS PI zeroInputs) n s).qRho = 0 ∧
    (Nat.iterate (MCAPP_EstimatorMRAS PI zeroInputs) n s).qOmegaRotorStateVar = 0 ∧
    (Nat.iterate (MCAPP_EstimatorMRAS PI zeroInputs) n s).ImrEstimStateVar = 0 ∧
    (Nat.iterate (MCAPP_EstimatorMRAS PI zeroInputs) n s).qRhoStateVar = 0 := by
  obtain ⟨m, rfl⟩ : ∃ m, n = m + 1 := ⟨n - 1, by omega⟩
  rw [Function.iterate_succ_apply']
  obtain ⟨⟨a1, a2, a3, a4, a5, a6, _⟩, b1, b2, b3, b4⟩ :=
    origin_step PI _ (origin_iterate PI s ho hPI m) hPI
  exact ⟨b1, a4, a6, b2, b3, a5, b4, a1, a2, a3⟩

/-- C11 (witness): three updates of the configured zero state with the stub PI primitive. -/
theorem zero_input_fixed_point_witness :
    AtOrigin cfgState ∧ PIRestsAtZero stubPI ∧ 1 ≤ 3 ∧
    (Nat.iterate (MCAPP_EstimatorMRAS stubPI zeroInputs) 3 cfgState).omegaRotorFil = 0 ∧
    (Nat.iterate (MCAPP_EstimatorMRAS stubPI zeroInputs) 3 cfgState).qRho = 0 :=
  ⟨by decide, stubPI_rests_at_zero, by decide,
    (zero_input_fixed_point stubPI cfgState (by decide) stubPI_rests_at_zero 3 (by decide)).2.1,
    (zero_input_fixed_point stubPI cfgState (by decide) stubPI_rests_at_zero 3
      (by decide)).2.2.2.2.2.2.1⟩

/-! ## The two accumulate-and-shift filters -/

/-- One step of the accumulate-and-shift filter `S += (int16_t)(R - F) * K; F = S >> 15` on
integers: when the published value `F` agrees with the accumulator `S` and the difference
`R - F` fits in 16 bits, the new published value is the shifted accumulator itself and lies
between `F` and `R`. -/
theorem ema_step {S F R K : Int} (hagree : F = asr S 15) (hF : InS16 F) (hR : InS16 R)
    (hK0 : 0 < K) (hK : K ≤ 32767) (hd : InS16 (R - F)) :
    toS16 (asr (toS32 (S + toS16 (R - F) * K)) 15) = asr (toS32 (S + toS16 (R - F) * K)) 15 ∧
    min F R ≤ toS16 (asr (toS32 (S + toS16 (R - F) * K)) 15) ∧
    toS16 (asr (toS32 (S + toS16 (R - F) * K)) 15) ≤ max F R := by
  rw [(toS16_eq_self_iff _).2 hd]
  rw [asr_eq_div] at hagree
  rw [asr_eq_div]
  simp only [min_le_iff, le_max_iff]
  unfold InS16 at hF hR hd
  by_cases hsign : 0 ≤ R - F
  · have hq1 : R - F ≤ (R - F) * K := by nlinarith
    have hq2 : (R - F) * K ≤ (R - F) * 32767 := by nlinarith
    generalize (R - F) * K = q at hq1 hq2 ⊢
    unfold toS16 toS32
    omega
  · have hq1 : (R - F) * 32767 ≤ (R - F) * K := by nlinarith
    have hq2 : (R - F) * K ≤ R - F := by nlinarith
    generalize (R - F) * K = q at hq1 hq2 ⊢
    unfold toS16 toS32
    omega

theorem update_rotor_accumulator (PI : PIPrimitive) (inp : MRAS_INPUTS)
    (s : MCAPP_ESTIMATOR_MRAS_T) :
    (MCAPP_EstimatorMRAS PI inp s).qOmegaRotorStateVar =
      toS32 (s.qOmegaRotorStateVar +
        toS16 ((MCAPP_EstimatorMRAS PI inp s).omegaRotor - s.omegaRotorFil) *
          s.qOmegaFiltConst) := by
  simp only [MCAPP_EstimatorMRAS, MCAPP_EstimatorMRAS_traced, MRAS_syncSpeedAndAngle,
    MRAS_slipSpeed, MRAS_magnetizingCurrent, MRAS_rotorSpeedFilter, MRAS_adaptiveCorrection,
    MRAS_estReactivePower, MRAS_refReactivePower, builtin_mulss]

theorem update_omegaRotor_inS16 (PI : PIPrimitive) (inp : MRAS_INPUTS)
    (s : MCAPP_ESTIMATOR_MRAS_T) : InS16 (MCAPP_EstimatorMRAS PI inp s).omegaRotor := by
  have h : (MCAPP_EstimatorMRAS PI inp s).omegaRotor =
      toS16 (inp.pCtrlParam.qVelRef + (MCAPP_EstimatorMRAS PI inp s).omegaPetrub) := by
    simp only [MCAPP_EstimatorMRAS, MCAPP_EstimatorMRAS_traced, MRAS_syncSpeedAndAngle,
      MRAS_slipSpeed, MRAS_magnetizingCurrent, MRAS_rotorSpeedFilter, MRAS_adaptiveCorrection,
      MRAS_estReactivePower, MRAS_refReactivePower]
  rw [h]
  exact toS16_inS16 _

theorem update_imr_accumulator (PI : PIPrimitive) (inp : MRAS_INPUTS)
    (s : MCAPP_ESTIMATOR_MRAS_T) :
    (MCAPP_EstimatorMRAS PI inp s).ImrEstimStateVar =
      toS32 (s.ImrEstimStateVar +
        toS16 (inp.pCtrlParam.qIdRef - s.ImrEstim) * s.qImrEstimFilterK) ∧
    (MCAPP_EstimatorMRAS PI inp s).qImrEstimFilterK = s.qImrEstimFilterK := by
  constructor <;>
  simp only [MCAPP_EstimatorMRAS, MCAPP_EstimatorMRAS_traced, MRAS_syncSpeedAndAngle,
    MRAS_slipSpeed, MRAS_magnetizingCurrent, MRAS_rotorSpeedFilter, MRAS_adaptiveCorrection,
    MRAS_estReactivePower, MRAS_refReactivePower, builtin_mulss]

/-- C15 (counterexample): the accumulator agrees with the filtered speed -20000 and the gain is
16384; with reference speed 20000 the raw rotor speed is 20000, the 16-bit difference
`(int16_t)(20000 - (-20000))` is -25536, and the new filtered speed is -32768, which is not
between -20000 and 20000. -/
theorem filtered_speed_moves_away_on_wrapped_difference :
    farState.omegaRotorFil = asr farState.qOmegaRotorStateVar 15 ∧
    0 < farState.qOmegaFiltConst ∧ farState.qOmegaFiltConst ≤ 32767 ∧
    (MCAPP_EstimatorMRAS stubPI farInputs farState).omegaRotor = 20000 ∧
    (MCAPP_EstimatorMRAS stubPI farInputs farState).omegaRotorFil = -32768 ∧
    ¬ (min farState.omegaRotorFil (MCAPP_EstimatorMRAS stubPI farInputs farState).omegaRotor ≤
        (MCAPP_EstimatorMRAS stubPI farInputs farState).omegaRotorFil ∧
      (MCAPP_EstimatorMRAS stubPI farInputs farState).omegaRotorFil ≤
        max farState.omegaRotorFil
          (MCAPP_EstimatorMRAS stubPI farInputs farState).omegaRotor) := by
  decide

/-- C15 (amended): for every state whose rotor-speed accumulator agrees with the published
16-bit filtered speed (`omegaRotorFil = qOmegaRotorStateVar >> 15`), every gain
`0 < qOmegaFiltConst <= 32767` and every input for which the difference between the new raw
rotor speed and the old filtered speed fits in 16 bits, after one update the new
`omegaRotorFil` lies between the old `omegaRotorFil` and the new `omegaRotor`, inclusive, and
agrees with the new accumulator. -/
theorem filtered_speed_moves_toward_raw_speed (PI : PIPrimitive) (inp : MRAS_INPUTS)
    (s : MCAPP_ESTIMATOR_MRAS_T)
    (hagree : s.omegaRotorFil = asr s.qOmegaRotorStateVar 15)
    (hF : InS16 s.omegaRotorFil)
    (hK0 : 0 < s.qOmegaFiltConst) (hK : s.qOmegaFiltConst ≤ 32767)
    (hd : InS16 ((MCAPP_EstimatorMRAS PI inp s).omegaRotor - s.omegaRotorFil)) :
    min s.omegaRotorFil (MCAPP_EstimatorMRAS PI inp s).omegaRotor ≤
      (MCAPP_EstimatorMRAS PI inp s).omegaRotorFil ∧
    (MCAPP_EstimatorMRAS PI inp s).omegaRotorFil ≤
      max s.omegaRotorFil (MCAPP_EstimatorMRAS PI inp s).omegaRotor ∧
    (MCAPP_EstimatorMRAS PI inp s).omegaRotorFil =
      asr (MCAPP_EstimatorMRAS PI inp s).qOmegaRotorStateVar 15 := by
  have hfil : (MCAPP_EstimatorMRAS PI inp s).omegaRotorFil =
      toS16 (asr (MCAPP_EstimatorMRAS PI inp s).qOmegaRotorStateVar 15) := rfl
  have hacc := update_rotor_accumulator PI inp s
  have h := ema_step hagree hF (update_omegaRotor_inS16 PI inp s) hK0 hK hd
  rw [← hacc] at h
  rw [hfil]
  exact ⟨h.2.1, h.2.2, h.1⟩

/-- C15 (witness): reference speed 1000 on the configured zero state: the filtered speed moves
from 0 to 500, the raw speed is 1000. -/
theorem filtered_speed_moves_toward_raw_speed_witness :
    cfgState.omegaRotorFil = asr cfgState.qOmegaRotorStateVar 15 ∧
    InS16 cfgState.omegaRotorFil ∧
    0 < cfgState.qOmegaFiltConst ∧ cfgState.qOmegaFiltConst ≤ 32767 ∧
    InS16 ((MCAPP_EstimatorMRAS stubPI speedRefInputs cfgState).omegaRotor -
      cfgState.omegaRotorFil) ∧
    (MCAPP_EstimatorMRAS stubPI speedRefInputs cfgState).omegaRotorFil = 500 ∧
    (MCAPP_EstimatorMRAS stubPI speedRefInputs cfgState).omegaRotorFil ≤
      max cfgState.omegaRotorFil (MCAPP_EstimatorMRAS stubPI speedRefInputs cfgState).omegaRotor :=
  ⟨by decide, by decide, by decide, by decide, by decide, by decide,
    (filtered_speed_moves_toward_raw_speed stubPI speedRefInputs cfgState (by decide)
      (by decide) (by decide) (by decide) (by decide)).2.1⟩

theorem imr_step (PI : PIPrimitive) (inp : MRAS_INPUTS) (t : MCAPP_ESTIMATOR_MRAS_T)
    (h0 : 0 ≤ t.ImrEstim) (hI : t.ImrEstim ≤ 32767)
    (hagree : t.ImrEstim = asr t.ImrEstimStateVar 15)
    (hr0 : 0 ≤ inp.pCtrlParam.qIdRef) (hr : inp.pCtrlParam.qIdRef ≤ 32767)
    (hK0 : 0 < t.qImrEstimFilterK) (hK : t.qImrEstimFilterK ≤ 32767) :
    min t.ImrEstim inp.pCtrlParam.qIdRef ≤ (MCAPP_EstimatorMRAS PI inp t).ImrEstim ∧
    (MCAPP_EstimatorMRAS PI inp t).ImrEstim ≤ max t.ImrEstim inp.pCtrlParam.qIdRef ∧
    (MCAPP_EstimatorMRAS PI inp t).ImrEstim =
      asr (MCAPP_EstimatorMRAS PI inp t).ImrEstimStateVar 15 := by
  have hfil : (MCAPP_EstimatorMRAS PI inp t).ImrEstim =
      toS16 (asr (MCAPP_EstimatorMRAS PI inp t).ImrEstimStateVar 15) := rfl
  have hacc := (update_imr_accumulator PI inp t).1
  have h := ema_step hagree ⟨by omega, hI⟩ ⟨by omega, hr⟩ hK0 hK
    (⟨by omega, by omega⟩ : InS16 (inp.pCtrlParam.qIdRef - t.ImrEstim))
  rw [← hacc] at h
  rw [hfil]
  exact ⟨h.2.1, h.2.2, h.1⟩

theorem imr_run (PI : PIPrimitive) (r lo hi : Int) (hlo : 0 ≤ lo) (hhi : hi ≤ 32767)
    (hlr : lo ≤ r) (hrh : r ≤ hi) (inputs : List MRAS_INPUTS) :
    ∀ t : MCAPP_ESTIMATOR_MRAS_T, (∀ i ∈ inputs, i.pCtrlParam.qIdRef = r) →
      lo ≤ t.ImrEstim → t.ImrEstim ≤ hi → t.ImrEstim = asr t.ImrEstimStateVar 15 →
      0 < t.qImrEstimFilterK → t.qImrEstimFilterK ≤ 32767 →
      ∀ u ∈ MRAS_run PI inputs t,
        lo ≤ u.ImrEstim ∧ u.ImrEstim ≤ hi ∧ u.ImrEstim = asr u.ImrEstimStateVar 15 := by
  induction inputs with
  | nil =>
    intro t _ _ _ _ _ _ u hu
    cases hu
  | cons i rest ih =>
    intro t hall h1 h2 hagree hK0 hK u hu
    have hi_ref : i.pCtrlParam.qIdRef = r := hall i (List.mem_cons_self i rest)
    have hstep := imr_step PI i t (by omega) (by omega) hagree (by omega) (by omega) hK0 hK
    rw [hi_ref] at hstep
    have hk := (update_imr_accumulator PI i t).2
    have hb1 : lo ≤ (MCAPP_EstimatorMRAS PI i t).ImrEstim :=
      le_trans (le_min h1 hlr) hstep.1
    have hb2 : (MCAPP_EstimatorMRAS PI i t).ImrEstim ≤ hi :=
      le_trans hstep.2.1 (max_le h2 hrh)
    simp only [MRAS_run, List.mem_cons] at hu
    rcases hu with hu | hu
    · subst hu
      exact ⟨hb1, hb2, hstep.2.2⟩
    · exact ih (MCAPP_EstimatorMRAS PI i t)
        (fun j hj => hall j (List.mem_cons_of_mem i hj)) hb1 hb2 hstep.2.2
        (by rw [hk]; exact hK0) (by rw [hk]; exact hK) u hu

/-- C16: for a state with 16-bit `ImrEstim >= 0` whose accumulator agrees with it
(`ImrEstim = ImrEstimStateVar >> 15`), a 16-bit reference d current `qIdRef >= 0` and a gain
`0 < qImrEstimFilterK <= 32767`, after one update the new `ImrEstim` lies between the old
`ImrEstim` and `qIdRef` inclusive, is non-negative and at most `max(old ImrEstim, qIdRef)`, and
the accumulator agrees with it again; and after every tick of any continuation of the run with
the same `qIdRef` the estimate is still non-negative, at most `max(old ImrEstim, qIdRef)` and in
agreement with its accumulator. -/
theorem magnetizing_current_stays_physical (PI : PIPrimitive) (inp : MRAS_INPUTS)
    (s : MCAPP_ESTIMATOR_MRAS_T)
    (h0 : 0 ≤ s.ImrEstim) (hI : s.ImrEstim ≤ 32767)
    (hagree : s.ImrEstim = asr s.ImrEstimStateVar 15)
    (hr0 : 0 ≤ inp.pCtrlParam.qIdRef) (hr : inp.pCtrlParam.qIdRef ≤ 32767)
    (hK0 : 0 < s.qImrEstimFilterK) (hK : s.qImrEstimFilterK ≤ 32767) :
    (min s.ImrEstim inp.pCtrlParam.qIdRef ≤ (MCAPP_EstimatorMRAS PI inp s).ImrEstim ∧
      (MCAPP_EstimatorMRAS PI inp s).ImrEstim ≤ max s.ImrEstim inp.pCtrlParam.qIdRef ∧
      0 ≤ (MCAPP_EstimatorMRAS PI inp s).ImrEstim ∧
      (MCAPP_EstimatorMRAS PI inp s).ImrEstim =
        asr (MCAPP_EstimatorMRAS PI inp s).ImrEstimStateVar 15) ∧
    (∀ rest : List MRAS_INPUTS,
      (∀ i ∈ rest, i.pCtrlParam.qIdRef = inp.pCtrlParam.qIdRef) →
      ∀ u ∈ MRAS_run PI (inp :: rest) s,
        0 ≤ u.ImrEstim ∧ u.ImrEstim ≤ max s.ImrEstim inp.pCtrlParam.qIdRef ∧
          u.ImrEstim = asr u.ImrEstimStateVar 15) := by
  have hstep := imr_step PI inp s h0 hI hagree hr0 hr hK0 hK
  have hmin : 0 ≤ min s.ImrEstim inp.pCtrlParam.qIdRef := le_min h0 hr0
  refine ⟨⟨hstep.1, hstep.2.1, le_trans hmin hstep.1, hstep.2.2⟩, ?_⟩
  intro rest hall u hu
  have hrun := imr_run PI inp.pCtrlParam.qIdRef (min s.ImrEstim inp.pCtrlParam.qIdRef)
    (max s.ImrEstim inp.pCtrlParam.qIdRef) hmin (max_le hI hr) (min_le_right _ _)
    (le_max_right _ _) (inp :: rest) s
    (by
      intro i hi
      rcases List.mem_cons.1 hi with h | h
      · rw [h]
      · exact hall i h)
    (min_le_left _ _) (le_max_left _ _) hagree hK0 hK u hu
  exact ⟨le_trans hmin hrun.1, hrun.2.1, hrun.2.2⟩

/-- C16 (witness): estimate 1000 with accumulator `1000 * 2^15 + 5`, reference 6554, gain
16384: the new estimate is 3777, between 1000 and 6554. -/
theorem magnetizing_current_stays_physical_witness :
    (0 ≤ fluxState.ImrEstim ∧ fluxState.ImrEstim ≤ 32767 ∧
      fluxState.ImrEstim = asr fluxState.ImrEstimStateVar 15 ∧
      0 ≤ fluxInputs.pCtrlParam.qIdRef ∧ fluxInputs.pCtrlParam.qIdRef ≤ 32767 ∧
      0 < fluxState.qImrEstimFilterK ∧ fluxState.qImrEstimFilterK ≤ 32767) ∧
    (MCAPP_EstimatorMRAS stubPI fluxInputs fluxState).ImrEstim = 3777 ∧
    (min fluxState.ImrEstim fluxInputs.pCtrlParam.qIdRef ≤
        (MCAPP_EstimatorMRAS stubPI fluxInputs fluxState).ImrEstim ∧
      (MCAPP_EstimatorMRAS stubPI fluxInputs fluxState).ImrEstim ≤
        max fluxState.ImrEstim fluxInputs.pCtrlParam.qIdRef ∧
      0 ≤ (MCAPP_EstimatorMRAS stubPI fluxInputs fluxState).ImrEstim ∧
      (MCAPP_EstimatorMRAS stubPI fluxInputs fluxState).ImrEstim =
        asr (MCAPP_EstimatorMRAS stubPI fluxInputs fluxState).ImrEstimStateVar 15) :=
  ⟨by decide, by decide,
    (magnetizing_current_stays_physical stubPI fluxInputs fluxState (by decide) (by decide)
      (by decide) (by decide) (by decide) (by decide) (by decide)).1⟩

/-! ## Steady-input convergence of the bilinear filter -/

theorem feed_exact (x : Int) (l : LPF) (h : LPF_NoOverflow { l with X := x }) :
    (LPF_feed x l).Y =
      asr (l.Y_prev * l.Y_Coeff) 15 + asr (l.X_Coeff * x) 15 + asr (l.X_Coeff * l.X_prev) 15 := by
  obtain ⟨h1, h2, h3, _, h5⟩ := h
  show toS16 (clamp16 (asr (l.Y_prev * l.Y_Coeff) 15) + clamp16 (asr (l.X_Coeff * x) 15) +
    clamp16 (asr (l.X_Coeff * l.X_prev) 15)) = _
  rw [clamp16_of_inS16 h1, clamp16_of_inS16 h2, clamp16_of_inS16 h3]
  exact (toS16_eq_self_iff _).2 h5

theorem feed_shape (x : Int) (l : LPF) :
    (LPF_feed x l).Y_prev = (LPF_feed x l).Y ∧ (LPF_feed x l).X_prev = x ∧
    (LPF_feed x l).X_Coeff = l.X_Coeff ∧ (LPF_feed x l).Y_Coeff = l.Y_Coeff :=
  ⟨rfl, rfl, rfl, rfl⟩

theorem iterate_feed_shape (x : Int) (l : LPF) (k : Nat) :
    (Nat.iterate (LPF_feed x) (k + 1) l).Y_prev = (Nat.iterate (LPF_feed x) (k + 1) l).Y ∧
    (Nat.iterate (LPF_feed x) (k + 1) l).X_prev = x ∧
    (Nat.iterate (LPF_feed x) k l).X_Coeff = l.X_Coeff ∧
    (Nat.iterate (LPF_feed x) k l).Y_Coeff = l.Y_Coeff := by
  have hc : ∀ j : Nat, (Nat.iterate (LPF_feed x) j l).X_Coeff = l.X_Coeff ∧
      (Nat.iterate (LPF_feed x) j l).Y_Coeff = l.Y_Coeff := by
    intro j
    induction j with
    | zero => exact ⟨rfl, rfl⟩
    | succ m ih =>
      rw [Function.iterate_succ_apply']
      exact ⟨(feed_shape x _).2.2.1.trans ih.1, (feed_shape x _).2.2.2.trans ih.2⟩
  rw [Function.iterate_succ_apply']
  exact ⟨(feed_shape x _).1, (feed_shape x _).2.1, (hc k).1, (hc k).2⟩

/-- The scaled error `E = (32768 - b) * Y - 2 * a * x` of a filter output obeys
`32768 * E' = b * E - (32768 - b) * theta` with a rounding term `0 <= theta <= 3 * 32767`. -/
theorem scaled_error_step (a b x Y : Int) :
    ∃ θ : Int, 0 ≤ θ ∧ θ ≤ 3 * 32767 ∧
      32768 * ((32768 - b) * (asr (Y * b) 15 + asr (a * x) 15 + asr (a * x) 15) - 2 * a * x) =
        b * ((32768 - b) * Y - 2 * a * x) - (32768 - b) * θ := by
  refine ⟨(Y * b) % 32768 + 2 * ((a * x) % 32768), ?_, ?_, ?_⟩
  · have h1 := Int.emod_nonneg (Y * b) (by norm_num : (32768 : Int) ≠ 0)
    have h2 := Int.emod_nonneg (a * x) (by norm_num : (32768 : Int) ≠ 0)
    omega
  · have h1 := Int.emod_lt_of_pos (Y * b) (by norm_num : (0 : Int) < 32768)
    have h2 := Int.emod_lt_of_pos (a * x) (by norm_num : (0 : Int) < 32768)
    omega
  · rw [asr_eq_div, asr_eq_div]
    have h1 := Int.emod_add_ediv (Y * b) 32768
    have h2 := Int.emod_add_ediv (a * x) 32768
    linear_combination (32768 - b) * h1 + 2 * (32768 - b) * h2

/-- A real sequence with `u (k+1) <= beta * u k + C` from index 1 on, `0 <= beta < 1`,
eventually stays below `C / (1 - beta) + g` for every margin `g > 0`. -/
theorem geometric_settle (u : Nat → ℝ) (β C g : ℝ) (hβ0 : 0 ≤ β) (hβ1 : β < 1) (hg : 0 < g)
    (hrec : ∀ k : Nat, 1 ≤ k → u (k + 1) ≤ β * u k + C) :
    ∃ N : Nat, ∀ n : Nat, N ≤ n → u n ≤ C / (1 - β) + g := by
  have h1β : 0 < 1 - β := by linarith
  have hL : β * (C / (1 - β)) + C = C / (1 - β) := by
    field_simp
    ring
  have hw : 0 < max (u 1 - C / (1 - β)) 0 + 1 := by
    have := le_max_right (u 1 - C / (1 - β)) 0
    linarith
  have hdecay : ∀ j : Nat, u (1 + j) - C / (1 - β) ≤
      β ^ j * (max (u 1 - C / (1 - β)) 0 + 1) := by
    intro j
    induction j with
    | zero =>
      have := le_max_left (u 1 - C / (1 - β)) 0
      simp only [pow_zero, one_mul, add_zero]
      linarith
    | succ m ih =>
      have hstep := hrec (1 + m) (by omega)
      have hmul := mul_le_mul_of_nonneg_left ih hβ0
      have hpow : β ^ (m + 1) * (max (u 1 - C / (1 - β)) 0 + 1) =
          β * (β ^ m * (max (u 1 - C / (1 - β)) 0 + 1)) := by ring
      rw [hpow]
      have : u (1 + (m + 1)) = u (1 + m + 1) := by ring_nf
      rw [this]
      linarith
  obtain ⟨m, hm⟩ := exists_pow_lt_of_lt_one (div_pos hg hw) hβ1
  refine ⟨1 + m, ?_⟩
  intro n hn
  obtain ⟨j, rfl⟩ : ∃ j, n = 1 + j := ⟨n - 1, by omega⟩
  have hmj : m ≤ j := by omega
  have hpow : β ^ j ≤ β ^ m := pow_le_pow_of_le_one hβ0 hβ1.le hmj
  have h2 : β ^ j * (max (u 1 - C / (1 - β)) 0 + 1) ≤
      β ^ m * (max (u 1 - C / (1 - β)) 0 + 1) := mul_le_mul_of_nonneg_right hpow hw.le
  have h3 : β ^ m * (max (u 1 - C / (1 - β)) 0 + 1) < g := by
    have := (lt_div_iff₀ hw).1 hm
    linarith
  have h4 := hdecay j
  linarith

theorem scaled_error_bound (b E E' θ : Int) (hb : b < 32768) (h0 : 0 ≤ θ)
    (h1 : θ ≤ 3 * 32767) (h : 32768 * E' = b * E - (32768 - b) * θ) :
    |(E' : ℝ)| ≤ |(b : ℝ)| / 32768 * |(E : ℝ)| + (32768 - (b : ℝ)) * (3 * 32767) / 32768 := by
  have hr : (32768 : ℝ) * E' = b * E - (32768 - b) * θ := by exact_mod_cast h
  have hθ0 : (0 : ℝ) ≤ θ := by exact_mod_cast h0
  have hθ1 : (θ : ℝ) ≤ 3 * 32767 := by exact_mod_cast h1
  have hbr : (b : ℝ) < 32768 := by exact_mod_cast hb
  have hD : (0 : ℝ) ≤ 32768 - b := by linarith
  have habs : (32768 : ℝ) * |(E' : ℝ)| ≤
      |(b : ℝ)| * |(E : ℝ)| + (32768 - b) * (3 * 32767) := by
    have e1 : (32768 : ℝ) * |(E' : ℝ)| = |(32768 : ℝ) * E'| := by
      rw [abs_mul, abs_of_pos (by norm_num : (0 : ℝ) < 32768)]
    rw [e1, hr]
    have e2 : |(b : ℝ) * E - (32768 - b) * θ| ≤ |(b : ℝ) * E| + |(32768 - (b : ℝ)) * θ| :=
      abs_sub _ _
    rw [abs_mul, abs_of_nonneg (mul_nonneg hD hθ0)] at e2
    have e3 : (32768 - (b : ℝ)) * θ ≤ (32768 - b) * (3 * 32767) :=
      mul_le_mul_of_nonneg_left hθ1 hD
    linarith
  have hfinal : |(b : ℝ)| / 32768 * |(E : ℝ)| + (32768 - (b : ℝ)) * (3 * 32767) / 32768 =
      (|(b : ℝ)| * |(E : ℝ)| + (32768 - b) * (3 * 32767)) / 32768 := by ring
  rw [hfinal, le_div_iff₀ (by norm_num : (0 : ℝ) < 32768)]
  linarith

/-- C13: starting from an initialised filter and feeding the constant input `x`, with
`|Y_Coeff| < 32768` and no rescaled product or partial sum of any call leaving the 16-bit
range, there is an `N` such that for every `n >= N` the `n`-th output differs from the real
number `x * (2 * X_Coeff) / (32768 - Y_Coeff)` by at most `3 * 32768 / (32768 - |Y_Coeff|)`. -/
theorem lowPassFilter_steady_input_converges (lpf : LPF) (x : Int)
    (hb : -32768 < lpf.Y_Coeff ∧ lpf.Y_Coeff < 32768)
    (hno : ∀ k : Nat, LPF_NoOverflow
      { Nat.iterate (LPF_feed x) k (MCAPP_MRAS_InitLowPassFilter lpf) with X := x }) :
    ∃ N : Nat, ∀ n : Nat, N ≤ n →
      |((Nat.iterate (LPF_feed x) n (MCAPP_MRAS_InitLowPassFilter lpf)).Y : ℝ) -
          (x : ℝ) * (2 * (lpf.X_Coeff : ℝ)) / (32768 - (lpf.Y_Coeff : ℝ))| ≤
        3 * 32768 / (32768 - |(lpf.Y_Coeff : ℝ)|) := by
  obtain ⟨hb1, hb2⟩ := hb
  have hbr1 : (-32768 : ℝ) < lpf.Y_Coeff := by exact_mod_cast hb1
  have hbr2 : (lpf.Y_Coeff : ℝ) < 32768 := by exact_mod_cast hb2
  have habs : |(lpf.Y_Coeff : ℝ)| < 32768 := abs_lt.2 ⟨hbr1, hbr2⟩
  have hD : (0 : ℝ) < 32768 - lpf.Y_Coeff := by linarith
  have hA : (0 : ℝ) < 32768 - |(lpf.Y_Coeff : ℝ)| := by linarith
  -- the scaled integer error of the k-th output and its recurrence
  have hrec : ∀ k : Nat, 1 ≤ k →
      |(((32768 - lpf.Y_Coeff) *
          (Nat.iterate (LPF_feed x) (k + 1) (MCAPP_MRAS_InitLowPassFilter lpf)).Y -
            2 * lpf.X_Coeff * x : Int) : ℝ)| ≤
        |(lpf.Y_Coeff : ℝ)| / 32768 *
          |(((32768 - lpf.Y_Coeff) *
            (Nat.iterate (LPF_feed x) k (MCAPP_MRAS_InitLowPassFilter lpf)).Y -
              2 * lpf.X_Coeff * x : Int) : ℝ)| +
        (32768 - (lpf.Y_Coeff : ℝ)) * (3 * 32767) / 32768 := by
    intro k hk
    obtain ⟨j, rfl⟩ : ∃ j, k = j + 1 := ⟨k - 1, by omega⟩
    obtain ⟨s1, s2, s3, s4⟩ := iterate_feed_shape x (MCAPP_MRAS_InitLowPassFilter lpf) j
    obtain ⟨_, _, t3, t4⟩ := iterate_feed_shape x (MCAPP_MRAS_InitLowPassFilter lpf) (j + 1)
    have hY := feed_exact x _ (hno (j + 1))
    rw [← Function.iterate_succ_apply' (LPF_feed x) (j + 1), s1, s2, t3, t4] at hY
    have hXc : (MCAPP_MRAS_InitLowPassFilter lpf).X_Coeff = lpf.X_Coeff := rfl
    have hYc : (MCAPP_MRAS_InitLowPassFilter lpf).Y_Coeff = lpf.Y_Coeff := rfl
    rw [hXc, hYc] at hY
    obtain ⟨θ, h0, h1, hθ⟩ := scaled_error_step lpf.X_Coeff lpf.Y_Coeff x
      (Nat.iterate (LPF_feed x) (j + 1) (MCAPP_MRAS_InitLowPassFilter lpf)).Y
    rw [← hY] at hθ
    exact scaled_error_bound _ _ _ θ hb2 h0 h1 hθ
  obtain ⟨N, hN⟩ := geometric_settle
    (fun k => |(((32768 - lpf.Y_Coeff) *
        (Nat.iterate (LPF_feed x) k (MCAPP_MRAS_InitLowPassFilter lpf)).Y -
          2 * lpf.X_Coeff * x : Int) : ℝ)|)
    (|(lpf.Y_Coeff : ℝ)| / 32768) ((32768 - (lpf.Y_Coeff : ℝ)) * (3 * 32767) / 32768)
    (3 * (32768 - (lpf.Y_Coeff : ℝ)) / (32768 - |(lpf.Y_Coeff : ℝ)|))
    (div_nonneg (abs_nonneg _) (by norm_num))
    ((div_lt_one (by norm_num : (0 : ℝ) < 32768)).2 habs)
    (div_pos (by linarith) hA) hrec
  refine ⟨N, ?_⟩
  intro n hn
  have h := hN n hn
  simp only at h
  have hsum : (32768 - (lpf.Y_Coeff : ℝ)) * (3 * 32767) / 32768 /
        (1 - |(lpf.Y_Coeff : ℝ)| / 32768) +
      3 * (32768 - (lpf.Y_Coeff : ℝ)) / (32768 - |(lpf.Y_Coeff : ℝ)|) =
      (32768 - (lpf.Y_Coeff : ℝ)) * (3 * 32768 / (32768 - |(lpf.Y_Coeff : ℝ)|)) := by
    have hne : (32768 : ℝ) - |(lpf.Y_Coeff : ℝ)| ≠ 0 := ne_of_gt hA
    have hne2 : (1 : ℝ) - |(lpf.Y_Coeff : ℝ)| / 32768 ≠ 0 := by
      have : (1 : ℝ) - |(lpf.Y_Coeff : ℝ)| / 32768 = (32768 - |(lpf.Y_Coeff : ℝ)|) / 32768 := by
        ring
      rw [this]
      exact div_ne_zero hne (by norm_num)
    field_simp
    ring
  rw [hsum] at h
  have herr : ((Nat.iterate (LPF_feed x) n (MCAPP_MRAS_InitLowPassFilter lpf)).Y : ℝ) -
      (x : ℝ) * (2 * (lpf.X_Coeff : ℝ)) / (32768 - (lpf.Y_Coeff : ℝ)) =
      (((32768 - lpf.Y_Coeff) *
        (Nat.iterate (LPF_feed x) n (MCAPP_MRAS_InitLowPassFilter lpf)).Y -
          2 * lpf.X_Coeff * x : Int) : ℝ) / (32768 - (lpf.Y_Coeff : ℝ)) := by
    push_cast
    field_simp
    ring
  rw [herr, abs_div, abs_of_pos hD, div_le_iff₀ hD]
  linarith

theorem nominal_feed_invariant (l : LPF)
    (h : l.X_Coeff = 4096 ∧ l.Y_Coeff = 24576 ∧ 0 ≤ l.Y_prev ∧ l.Y_prev ≤ 1000 ∧
      0 ≤ l.X_prev ∧ l.X_prev ≤ 1000) :
    LPF_NoOverflow { l with X := 1000 } ∧
    ((LPF_feed 1000 l).X_Coeff = 4096 ∧ (LPF_feed 1000 l).Y_Coeff = 24576 ∧
      0 ≤ (LPF_feed 1000 l).Y_prev ∧ (LPF_feed 1000 l).Y_prev ≤ 1000 ∧
      0 ≤ (LPF_feed 1000 l).X_prev ∧ (LPF_feed 1000 l).X_prev ≤ 1000) := by
  obtain ⟨hXc, hYc, hy0, hy1, hx0, hx1⟩ := h
  have hno : LPF_NoOverflow { l with X := 1000 } := by
    unfold LPF_NoOverflow InS16
    simp only [hXc, hYc, asr_eq_div]
    omega
  have hxp : (LPF_feed 1000 l).X_prev = 1000 := rfl
  refine ⟨hno, hXc, hYc, ?_, ?_, by rw [hxp]; decide, by rw [hxp]⟩
  · have hY := feed_exact 1000 l hno
    rw [(feed_shape 1000 l).1, hY, hXc, hYc, asr_eq_div, asr_eq_div, asr_eq_div]
    omega
  · have hY := feed_exact 1000 l hno
    rw [(feed_shape 1000 l).1, hY, hXc, hYc, asr_eq_div, asr_eq_div, asr_eq_div]
    omega

theorem nominal_no_overflow : ∀ k : Nat, LPF_NoOverflow
    { Nat.iterate (LPF_feed 1000) k (MCAPP_MRAS_InitLowPassFilter lpfNominal) with X := 1000 } := by
  have hinv : ∀ k : Nat,
      (Nat.iterate (LPF_feed 1000) k (MCAPP_MRAS_InitLowPassFilter lpfNominal)).X_Coeff = 4096 ∧
      (Nat.iterate (LPF_feed 1000) k (MCAPP_MRAS_InitLowPassFilter lpfNominal)).Y_Coeff = 24576 ∧
      0 ≤ (Nat.iterate (LPF_feed 1000) k (MCAPP_MRAS_InitLowPassFilter lpfNominal)).Y_prev ∧
      (Nat.iterate (LPF_feed 1000) k (MCAPP_MRAS_InitLowPassFilter lpfNominal)).Y_prev ≤ 1000 ∧
      0 ≤ (Nat.iterate (LPF_feed 1000) k (MCAPP_MRAS_InitLowPassFilter lpfNominal)).X_prev ∧
      (Nat.iterate (LPF_feed 1000) k (MCAPP_MRAS_InitLowPassFilter lpfNominal)).X_prev ≤ 1000 := by
    intro k
    induction k with
    | zero => decide
    | succ m ih =>
      rw [Function.iterate_succ_apply']
      exact (nominal_feed_invariant _ ih).2
  intro k
  exact (nominal_feed_invariant _ (hinv k)).1

/-- C13 (witness): input 1000 with `X_Coeff = 4096`, `Y_Coeff = 24576`: every output stays in
`[0, 1000]`, so nothing overflows, and the outputs settle within `3 * 32768 / 8192 = 12` of
`1000 * 8192 / 8192 = 1000`. -/
theorem lowPassFilter_steady_input_converges_witness :
    (-32768 < lpfNominal.Y_Coeff ∧ lpfNominal.Y_Coeff < 32768) ∧
    (∀ k : Nat, LPF_NoOverflow
      { Nat.iterate (LPF_feed 1000) k (MCAPP_MRAS_InitLowPassFilter lpfNominal) with
        X := 1000 }) ∧
    ∃ N : Nat, ∀ n : Nat, N ≤ n →
      |((Nat.iterate (LPF_feed 1000) n (MCAPP_MRAS_InitLowPassFilter lpfNominal)).Y : ℝ) -
          ((1000 : Int) : ℝ) * (2 * (lpfNominal.X_Coeff : ℝ)) /
            (32768 - (lpfNominal.Y_Coeff : ℝ))| ≤
        3 * 32768 / (32768 - |(lpfNominal.Y_Coeff : ℝ)|) :=
  ⟨by decide, nominal_no_overflow,
    lowPassFilter_steady_input_converges lpfNominal 1000 (by decide) nominal_no_overflow⟩

end MRAS
